import Mathlib

/-!
Error chains and diagnostic codes (package `pkg/errors`)

A shallow embedding of the Go package `pkg/errors` (files `code.go`, `errors.go`,
`format.go`, `stack.go`) and theorems about it, followed by the manager list of the
shutdown coordinator (`pkg/shutdown`, namespace `shutdown`).

Conventions of the embedding:

* A Go `error` interface value is a value of `Err`; the nil interface is `Err.nil`.
* A `*stack` is the list of program counters it points to.  Every constructor of the
  package stores the result of `callers()`, which is never a nil pointer, so a node
  holds a plain list; the captured snapshot is passed to each constructor explicitly.
* The field `withCode.err` always holds the result of `fmt.Errorf` and only its
  `Error()` text is ever read, so it is represented by that text.
* Formatting calls are modelled for the case without operands (`fmt.Sprintf(format)`),
  which is what `Wrap`, `format` and `withCode.Format` use.
* The code registry `codes` is passed explicitly as a finite map (a function to `Option`);
  `Register` and `MustRegister` return the registry after the call and the panic value.
* Where the identity of a node matters (`Is` compares pointers), an error value is a
  value of `Ptr`, which is `Err` with the address of every node; `Ptr.node` forgets the
  addresses.
* Where the lock `codeMux` matters, a call is described by the sequence of its lock
  operations and accesses to the map `codes` (`Event`).
-/

namespace errors

/-! ## Go library functions used by the package -/

namespace gofmt

/-- Flag bytes skipped by the `simpleFormat` loop of `doPrintf`. -/
def isFlag (c : Char) : Bool :=
  c == '#' || c == '0' || c == '+' || c == '-' || c == ' '

/-- Go `tooLarge`: the bound on widths, precisions and argument indexes. -/
def tooLarge (x : Nat) : Bool := decide (x > 1000000)

/-- Go `parsenum` on the rest of the format: scans decimal digits starting with the
value `num` read so far.  Returns whether a number was read and the unread rest; on
overflow Go returns `(0, false, end)`, that is, nothing read and the rest skipped. -/
def parsenum : Nat → Bool → List Char → Bool × List Char
  | _, isnum, [] => (isnum, [])
  | num, isnum, c :: cs =>
    if c.isDigit then
      if tooLarge num then (false, [])
      else parsenum (num * 10 + (c.toNat - 48)) true cs
    else (isnum, c :: cs)

/-- Go `parseArgNumber` on a format that starts with `[`: the width of the bracketed
index and whether it is a well-formed number.  The value of the index is not returned:
with no operand every index is out of range. -/
def parseArgNumber (format : List Char) : Nat × Bool :=
  if format.length < 3 then (1, false)
  else
    match (format.drop 1).indexOf? ']' with
    | none => (1, false)
    | some j =>
      -- the closing bracket is at position j + 1 of format
      let r := parsenum 0 false ((format.drop 1).take j)
      if r.1 && r.2.isEmpty then (j + 2, true) else (j + 2, false)

/-- Go `argNumber` with no operand: the unread rest, whether an index was found
(`afterIndex`), and whether `goodArgNum` stays true. -/
def argNumber (format : List Char) : List Char × Bool × Bool :=
  match format with
  | '[' :: _ =>
    let r := parseArgNumber format
    (format.drop r.1, r.2, false)
  | _ => (format, false, true)

/-- The width step of `doPrintf` with no operand: the text written (`%!(BADWIDTH)` for
a `*`), the unread rest and the new `afterIndex`. -/
def width (format : List Char) (afterIndex : Bool) : List Char × List Char × Bool :=
  match format with
  | '*' :: rest => ("%!(BADWIDTH)".toList, rest, false)
  | rest => ([], (parsenum 0 false rest).2, afterIndex)

/-- The precision step of `doPrintf` with no operand: the text written (`%!(BADPREC)`
for a `*`), the unread rest, the new `afterIndex`, and whether `goodArgNum` stays
true. -/
def precision (format : List Char) (afterIndex : Bool) :
    List Char × List Char × Bool × Bool :=
  match format with
  | '.' :: rest =>
    let a := argNumber rest
    match a.1 with
    | '*' :: rest2 => ("%!(BADPREC)".toList, rest2, false, a.2.2 && !afterIndex)
    | rest2 => ([], (parsenum 0 false rest2).2, a.2.1, a.2.2 && !afterIndex)
  | rest => ([], rest, afterIndex, true)

/-- One verb of `doPrintf` with no operand, the `%` already consumed: the text written
for it and the unread rest of the format (`none`: the format ended, processing stops
after `%!(NOVERB)`).  Flags are skipped, then come the argument index, the width, the
precision and a last argument index; the verb `%` writes a percent sign, any other verb
writes `%!v(BADINDEX)` after a bad index and `%!v(MISSING)` otherwise. -/
def verb0 (format : List Char) : List Char × Option (List Char) :=
  let a1 := argNumber (format.dropWhile isFlag)
  let w := width a1.1 a1.2.1
  let p := precision w.2.1 w.2.2
  let a3 := if p.2.2.1 then (p.2.1, true, true) else argNumber p.2.1
  let good := a1.2.2 && p.2.2.2 && a3.2.2
  match a3.1 with
  | [] => (w.1 ++ p.1 ++ "%!(NOVERB)".toList, none)
  | v :: rest =>
    let text :=
      if v == '%' then ['%']
      else if !good then "%!".toList ++ [v] ++ "(BADINDEX)".toList
      else "%!".toList ++ [v] ++ "(MISSING)".toList
    (w.1 ++ p.1 ++ text, some rest)

/-- Go `doPrintf` with no operand.  The first argument bounds the number of steps; every
step consumes at least one character, so the length of the format is enough
(`doPrintf_fuel`). -/
def doPrintf : Nat → List Char → List Char
  | 0, _ => []
  | _, [] => []
  | n + 1, c :: cs =>
    if c == '%' then
      match verb0 cs with
      | (out, none) => out
      | (out, some rest) => out ++ doPrintf n rest
    else c :: doPrintf n cs

/-- Go `fmt.Sprintf(format)` (also `fmt.Fprintf(w, format)` and the text of
`fmt.Errorf(format)`) called without operands. -/
def Sprintf (format : String) : String :=
  String.mk (doPrintf format.length format.data)

end gofmt

namespace strings

/-- Go `strings.Trim(s, cutset)`: `s` without the leading and trailing characters that
occur in `cutset`. -/
def Trim (s : String) (cutset : String) : String :=
  let inCut : Char → Bool := fun c => cutset.data.contains c
  String.mk ((s.data.dropWhile inCut).reverse.dropWhile inCut).reverse

end strings

/-! ## Code registry (`code.go`) -/

/-- Go `defaultCoder`, the descriptor of a diagnostic code. -/
structure defaultCoder where
  C : Int
  HTTP : Int
  Ext : String
  Ref : String
deriving DecidableEq, Repr

/-- The values stored in the registry; `defaultCoder` is the package's implementation of
the `Coder` interface. -/
abbrev Coder := defaultCoder

/-- Go `defaultCoder.Code`. -/
def defaultCoder.Code (coder : defaultCoder) : Int := coder.C

/-- Go `defaultCoder.HTTPStatus`. -/
def defaultCoder.HTTPStatus (coder : defaultCoder) : Int :=
  if coder.HTTP = 0 then 500 else coder.HTTP

/-- Go `defaultCoder.Reference`. -/
def defaultCoder.Reference (coder : defaultCoder) : String := coder.Ref

/-- Go `defaultCoder.String`. -/
def defaultCoder.String (coder : defaultCoder) : String := coder.Ext

/-- Go `unknownCoder` (`http.StatusInternalServerError` is 500). -/
def unknownCoder : defaultCoder :=
  { C := 1, HTTP := 500, Ext := "An internal server error occurred", Ref := "none" }

/-- The state of the package variable `codes`, a `map[int]Coder`. -/
abbrev Codes := Int → Option Coder

/-- The registry after package initialisation: the empty map, then `init` stores the
unknown descriptor under its own code. -/
def initCodes : Codes := fun k => if k = unknownCoder.Code then some unknownCoder else none

/-- The outcome of a call that works on the registry: the value of `codes` when the call
ends and the panic value, `none` when the call returns normally. -/
structure Outcome where
  codes : Codes
  panic : Option String

/-- Go `Register`: panics on code 0 before it touches the map, otherwise stores
`codes[coder.Code()] = coder`. -/
def Register (codes : Codes) (coder : Coder) : Outcome :=
  if coder.Code = 0 then { codes := codes, panic := some "请设置非0错误码" }
  else
    { codes := fun k => if k = coder.Code then some coder else codes k
      panic := none }

/-- Go `MustRegister`: panics on code 0 and on a code that is already a key of the map,
otherwise stores `codes[coder.Code()] = coder`.  The second panic value is
`fmt.Sprintf("code: %d is already exist", coder.Code())`. -/
def MustRegister (codes : Codes) (coder : Coder) : Outcome :=
  if coder.Code = 0 then { codes := codes, panic := some "请设置非0错误码" }
  else if (codes coder.Code).isSome then
    { codes := codes
      panic := some ("code: " ++ toString coder.Code ++ " is already exist") }
  else
    { codes := fun k => if k = coder.Code then some coder else codes k
      panic := none }

/-- Every entry of the registry is stored under its own code, as `init`, `Register` and
`MustRegister` (the only writers of `codes`) store it. -/
def Codes.Keyed (codes : Codes) : Prop := ∀ k d, codes k = some d → d.Code = k

/-! ## Error chain nodes (`errors.go`) -/

/-- A Go `error` interface value: nil, one of the four node types of the package, or an
error of another package.  An error of another package has no `Cause` method; it is
`external` when it has no `Unwrap` method either (`io.EOF`, `errors.New`), and
`externalWrap` when its `Unwrap` method returns `inner` (`fmt.Errorf` with `%w`). -/
inductive Err where
  | nil
  | baseError (msg : String) (stack : List Nat)
  | withStack (error : Err) (stack : List Nat)
  | withMessage (cause : Err) (msg : String)
  | withCode (err : String) (code : Int) (cause : Err) (stack : List Nat)
  | external (text : String)
  | externalWrap (text : String) (inner : Err)
deriving DecidableEq, Repr

/-- Go `New`; `callers` is the snapshot returned by `callers()`. -/
def New (callers : List Nat) (msg : String) : Err := .baseError msg callers

/-- Go `Errorf` without operands. -/
def Errorf (callers : List Nat) (format : String) : Err :=
  .baseError (gofmt.Sprintf format) callers

/-- Go `WithStack`. -/
def WithStack (callers : List Nat) (err : Err) : Err :=
  match err with
  | .nil => .nil
  | .withCode e code _ _ => .withCode e code err callers
  | _ => .withStack err callers

/-- Go `WithMessage`. -/
def WithMessage (err : Err) (message : String) : Err :=
  match err with
  | .nil => .nil
  | _ => .withMessage err message

/-- Go `WithMessagef` without operands. -/
def WithMessagef (err : Err) (format : String) : Err :=
  match err with
  | .nil => .nil
  | _ => .withMessage err (gofmt.Sprintf format)

/-- Go `WithCode` without operands. -/
def WithCode (callers : List Nat) (code : Int) (format : String) : Err :=
  .withCode (gofmt.Sprintf format) code .nil callers

/-- Go `Wrap`.  The coded branch builds its text with `fmt.Errorf(message)`. -/
def Wrap (callers : List Nat) (err : Err) (message : String) : Err :=
  match err with
  | .nil => .nil
  | .withCode _ code _ _ => .withCode (gofmt.Sprintf message) code err callers
  | _ => .withStack (.withMessage err message) callers

/-- Go `Wrapf` without operands. -/
def Wrapf (callers : List Nat) (err : Err) (format : String) : Err :=
  match err with
  | .nil => .nil
  | .withCode _ code _ _ => .withCode (gofmt.Sprintf format) code err callers
  | _ => .withStack (.withMessage err (gofmt.Sprintf format)) callers

/-- Go `WrapC` without operands. -/
def WrapC (callers : List Nat) (err : Err) (code : Int) (format : String) : Err :=
  match err with
  | .nil => .nil
  | _ => .withCode (gofmt.Sprintf format) code err callers

/-- Go `ParseCoder`; `none` is the nil `Coder` returned for a nil error. -/
def ParseCoder (codes : Codes) (err : Err) : Option Coder :=
  match err with
  | .nil => none
  | .withCode _ code _ _ =>
    match codes code with
    | some coder => some coder
    | none => some unknownCoder
  | _ => some unknownCoder

/-- Go `IsCode`. -/
def IsCode : Err → Int → Bool
  | .withCode _ c cause _, code =>
    if c = code then true
    else if cause ≠ .nil then IsCode cause code
    else false
  | _, _ => false

/-- Go `Cause`: the loop follows the `Cause` method of the three wrapping node types
while it returns a non-nil error. -/
def Cause : Err → Err
  | .withStack error stack => if error = .nil then .withStack error stack else Cause error
  | .withMessage cause msg => if cause = .nil then .withMessage cause msg else Cause cause
  | .withCode err code cause stack =>
    if cause = .nil then .withCode err code cause stack else Cause cause
  | e => e

/-- The `Unwrap` method of an error: `none` when its type has no such method.  For
`withStack` it is the embedded error's `Unwrap()` when that error has the method, and
the embedded error otherwise. -/
def Unwrap? : Err → Option Err
  | .withStack error _ =>
    match Unwrap? error with
    | some u => some u
    | none => some error
  | .withMessage cause _ => some cause
  | .withCode _ _ cause _ => some cause
  | .externalWrap _ inner => some inner
  | _ => none

/-- Number of nodes nested in an error value. -/
def Err.depth : Err → Nat
  | .withStack error _ => error.depth + 1
  | .withMessage cause _ => cause.depth + 1
  | .withCode _ _ cause _ => cause.depth + 1
  | .externalWrap _ inner => inner.depth + 1
  | _ => 0

/-- Go `list` with a bound on the recursion depth. -/
def listAux : Nat → Err → List Err
  | 0, _ => []
  | n + 1, e =>
    if e = .nil then []
    else
      match Unwrap? e with
      | some u => e :: listAux n u
      | none => [e]

/-- Go `list`: the error chain flattened along `Unwrap`.  Each call descends into a
nested node, so `depth + 1` calls reach the end (`list_eq`). -/
def list (e : Err) : List Err := listAux (e.depth + 1) e

/-- Go `Unwrap`, which calls `errors.Unwrap` of the standard library: the result of the
error's `Unwrap` method, nil when its type has none. -/
def Unwrap (err : Err) : Err :=
  match Unwrap? err with
  | some u => u
  | none => .nil

/-! ## Identity of nodes: `Is` (`errors.go`) -/

/-- An error value together with the identity of its nodes.  Every node of the package is
held by pointer (`*baseError`, `*withStack`, `*withMessage`, `*withCode`), and so are the
errors of the standard library (`*errorString` for `errors.New` and `io.EOF`,
`*wrapError` for `fmt.Errorf` with `%w`); `addr` is the address the pointer holds, and
the other fields are those of `Err`. -/
inductive Ptr where
  | nil
  | baseError (addr : Nat) (msg : String) (stack : List Nat)
  | withStack (addr : Nat) (error : Ptr) (stack : List Nat)
  | withMessage (addr : Nat) (cause : Ptr) (msg : String)
  | withCode (addr : Nat) (err : String) (code : Int) (cause : Ptr) (stack : List Nat)
  | external (addr : Nat) (text : String)
  | externalWrap (addr : Nat) (text : String) (inner : Ptr)
deriving DecidableEq, Repr

/-- The address held by an error value, `none` for the nil interface. -/
def Ptr.addr? : Ptr → Option Nat
  | .nil => none
  | .baseError addr _ _ => some addr
  | .withStack addr _ _ => some addr
  | .withMessage addr _ _ => some addr
  | .withCode addr _ _ _ _ => some addr
  | .external addr _ => some addr
  | .externalWrap addr _ _ => some addr

/-- The error value a pointer refers to: the node and the chain beneath it, without the
addresses. -/
def Ptr.node : Ptr → Err
  | .nil => .nil
  | .baseError _ msg stack => .baseError msg stack
  | .withStack _ error stack => .withStack error.node stack
  | .withMessage _ cause msg => .withMessage cause.node msg
  | .withCode _ err code cause stack => .withCode err code cause.node stack
  | .external _ text => .external text
  | .externalWrap _ text inner => .externalWrap text inner.node

/-- Go `==` on two error interface values: both are nil, or both hold the same pointer.
The content of the nodes is not compared. -/
def Ptr.same (a b : Ptr) : Bool := a.addr? == b.addr?

/-- The `Unwrap` method on values with identity, as `Unwrap?` on `Err`. -/
def Ptr.Unwrap? : Ptr → Option Ptr
  | .withStack _ error _ =>
    match error.Unwrap? with
    | some u => some u
    | none => some error
  | .withMessage _ cause _ => some cause
  | .withCode _ _ _ cause _ => some cause
  | .externalWrap _ _ inner => some inner
  | _ => none

/-- Number of nodes nested in an error value. -/
def Ptr.depth : Ptr → Nat
  | .withStack _ error _ => error.depth + 1
  | .withMessage _ cause _ => cause.depth + 1
  | .withCode _ _ _ cause _ => cause.depth + 1
  | .externalWrap _ _ inner => inner.depth + 1
  | _ => 0

/-- Go `New` on values with identity; `addr` is the address of the node it allocates. -/
def Ptr.New (addr : Nat) (callers : List Nat) (msg : String) : Ptr :=
  .baseError addr msg callers

/-- Go `WithStack` on values with identity; `addr` is the address of the node it
allocates. -/
def Ptr.WithStack (addr : Nat) (callers : List Nat) (err : Ptr) : Ptr :=
  match err with
  | .nil => .nil
  | .withCode _ e code _ _ => .withCode addr e code err callers
  | _ => .withStack addr err callers

/-- Go `Wrap` on values with identity; the un-coded branch allocates the MessageWrap node
at `addr₁` and the StackWrap node at `addr₂`, the coded branch its node at `addr₂`. -/
def Ptr.Wrap (addr₁ addr₂ : Nat) (callers : List Nat) (err : Ptr) (message : String) : Ptr :=
  match err with
  | .nil => .nil
  | .withCode _ _ code _ _ => .withCode addr₂ (gofmt.Sprintf message) code err callers
  | _ => .withStack addr₂ (.withMessage addr₁ err message) callers

/-- The loop of `errors.Is` of the standard library with a bound on the number of
steps: the error and the target are the same value (`err == target`), or the loop goes
on with the result of the error's `Unwrap` method and ends with false when that is nil
or when the error has no such method.  No error of the model has an `Is` method, and
every target is a pointer and so comparable. -/
def isAux : Nat → Ptr → Ptr → Bool
  | 0, _, _ => false
  | n + 1, err, target =>
    if err.same target then true
    else
      match err.Unwrap? with
      | some u => if u = .nil then false else isAux n u target
      | none => false

/-- Go `Is`, which calls `errors.Is` of the standard library: `err == target` when one of
them is nil, the loop otherwise.  Each step of the loop descends into a nested node, so
`depth + 1` steps reach the end of the chain. -/
def Is (err target : Ptr) : Bool :=
  if err = .nil ∨ target = .nil then err.same target
  else isAux (err.depth + 1) err target

/-! ## Stack frames (`stack.go`) -/

/-- What Go `runtime.FuncForPC` returns: the function's name and, for a program counter,
the file and line (`fn.FileLine(pc)`). -/
structure Func where
  Name : String
  FileLine : Nat → String × Int

/-- A JSON value stored in the maps that the structured render builds. -/
inductive JSONValue where
  | str (s : String)
  | num (n : Int)
deriving DecidableEq, Repr

/-- A Go `map[string]any` of the structured render, as its key-value pairs. -/
abbrev JSONMap := List (String × JSONValue)

/-- The Go runtime and library services the package calls: symbol resolution
(`runtime.FuncForPC`), `json.Marshal` of the record list, and `%q` quoting. -/
structure Runtime where
  FuncForPC : Nat → Option Func
  Marshal : List JSONMap → String
  Quote : String → String

/-- Go `Frame.pc`: `uintptr(f) - 1` on a 64-bit word. -/
def Frame.pc (f : Nat) : Nat := (f + 2 ^ 64 - 1) % 2 ^ 64

/-- Go `Frame.file`. -/
def Frame.file (rt : Runtime) (f : Nat) : String :=
  match rt.FuncForPC (Frame.pc f) with
  | none => "unknown"
  | some fn => (fn.FileLine (Frame.pc f)).1

/-- Go `Frame.line`. -/
def Frame.line (rt : Runtime) (f : Nat) : Int :=
  match rt.FuncForPC (Frame.pc f) with
  | none => 0
  | some fn => (fn.FileLine (Frame.pc f)).2

/-- Go `Frame.name`. -/
def Frame.name (rt : Runtime) (f : Nat) : String :=
  match rt.FuncForPC (Frame.pc f) with
  | none => "unknown"
  | some fn => fn.Name

/-- Go `Frame.Format` for `%+v`: the function name, a newline and tab, the file, a colon
and the line. -/
def Frame.FormatPlusV (rt : Runtime) (f : Nat) : String :=
  Frame.name rt f ++ "\n\t" ++ Frame.file rt f ++ ":" ++ toString (Frame.line rt f)

/-- Go `(*stack).Format` for `%+v`: every frame on a line of its own. -/
def stack.FormatPlusV (rt : Runtime) (s : List Nat) : String :=
  s.foldl (fun acc pc => acc ++ "\n" ++ Frame.FormatPlusV rt pc) ""

/-- Go `stackDepth`, the capacity of a snapshot. -/
def stackDepth : Nat := 32

/-- Go `callers`: `runtime.Callers(3, pcs[:])` fills `pcs` with the program counters of
the frames above the constructor that called `callers`, nearest first, at most
`stackDepth` of them, and the snapshot is `pcs[0:n]`.  `frames` are the program counters
of those frames; the constructor runs in a call made by some function, so the list holds
at least the frame of that caller. -/
def callers (frames : List Nat) : List Nat := frames.take stackDepth

/-! ## Format engine (`format.go`) -/

/-- The formatting directive seen by a `Format` method: the flags of `fmt.State`. -/
structure State where
  sharp : Bool
  minus : Bool
  plus : Bool
deriving DecidableEq, Repr

/-- Go `fmt.State.Flag`. -/
def State.Flag (state : State) (c : Char) : Bool :=
  if c == '#' then state.sharp
  else if c == '-' then state.minus
  else if c == '+' then state.plus
  else false

/-- Go `formatInfo`; `stack` is `none` for the nil pointer. -/
structure formatInfo where
  code : Int
  message : String
  err : String
  stack : Option (List Nat)
deriving DecidableEq, Repr

/-- The `Error` method of an error.  For `withStack` it is the embedded error's method.
For `withCode` it is `fmt.Sprintf("%v", w)`, the render of the node with no flag; the
value is written out here and `withCode_Error_eq_Format` shows that it is the result of
`withCode.Format`.  (`Error` is never called on nil by the package.) -/
def Err.Error (codes : Codes) : Err → String
  | .nil => ""
  | .baseError msg _ => msg
  | .withStack error _ => error.Error codes
  | .withMessage _ msg => msg
  | .withCode err code _ _ =>
    let coder := (codes code).getD unknownCoder
    let extMsg := if coder.String = "" then err else coder.String
    strings.Trim (gofmt.Sprintf extMsg) "\r\n\t"
  | .external text => text
  | .externalWrap text _ => text

/-- Go `buildFormatInfo`. -/
def buildFormatInfo (codes : Codes) (e : Err) : formatInfo :=
  match e with
  | .baseError msg stack =>
    { code := unknownCoder.Code, message := msg, err := msg, stack := some stack }
  | .withStack _ stack =>
    { code := unknownCoder.Code, message := e.Error codes, err := e.Error codes,
      stack := some stack }
  | .withCode err code _ stack =>
    let coder :=
      match codes code with
      | some coder => coder
      | none => unknownCoder
    let extMsg := if coder.String = "" then err else coder.String
    { code := coder.Code, message := extMsg, err := err, stack := some stack }
  | _ =>
    { code := unknownCoder.Code, message := e.Error codes, err := e.Error codes,
      stack := none }

/-- Go `format`.  `none` is the index-out-of-range panic of `(*finfo.stack)[0]` on a
snapshot without frames. -/
def format (rt : Runtime) (k : Int) (jsonData : List JSONMap) (str : String)
    (finfo : formatInfo) (sep : String) (flagDetail flagTrace modeJSON : Bool) :
    Option (List JSONMap × String) :=
  if modeJSON then
    if flagDetail || flagTrace then
      let data : JSONMap :=
        [("message", .str finfo.message), ("code", .num finfo.code),
         ("error", .str finfo.err)]
      let caller := "#" ++ toString k
      match finfo.stack with
      | some [] => none
      | some (f :: _) =>
        let caller := caller ++ " " ++ Frame.file rt f ++ ":" ++ toString (Frame.line rt f)
          ++ " (" ++ Frame.name rt f ++ ")"
        some (jsonData ++ [data ++ [("caller", .str caller)]], str)
      | none => some (jsonData ++ [data ++ [("caller", .str caller)]], str)
    else
      some (jsonData ++ [[("error", .str finfo.message)]], str)
  else
    if flagDetail || flagTrace then
      match finfo.stack with
      | some [] => none
      | some (f :: _) =>
        some (jsonData, str ++ (sep ++ finfo.err ++ " - #" ++ toString k ++ " ["
          ++ Frame.file rt f ++ ":" ++ toString (Frame.line rt f) ++ " ("
          ++ Frame.name rt f ++ ")](" ++ toString finfo.code ++ ") " ++ finfo.message))
      | none =>
        some (jsonData, str ++ (sep ++ finfo.err ++ " - #" ++ toString k ++ " "
          ++ finfo.message))
    else
      some (jsonData, str ++ gofmt.Sprintf finfo.message)

/-- The `for k, e := range errs` loop of `withCode.Format`, from index `k` on the rest
of `errs`, with the current `jsonData`, `str` and `sep`. -/
def formatLoop (rt : Runtime) (codes : Codes) (length : Int)
    (flagDetail flagTrace modeJSON : Bool) :
    Int → List Err → List JSONMap → String → String → Option (List JSONMap × String)
  | _, [], jsonData, str, _ => some (jsonData, str)
  | k, e :: errs, jsonData, str, sep =>
    match format rt (length - k - 1) jsonData str (buildFormatInfo codes e) sep
        flagDetail flagTrace modeJSON with
    | none => none
    | some r =>
      if !flagTrace then some r
      else if !flagDetail && !flagTrace && !modeJSON then some r
      else formatLoop rt codes length flagDetail flagTrace modeJSON (k + 1) errs r.1 r.2 ";"

/-- The records accumulated by the loop of `withCode.Format` for verb `v`: the
`jsonData` list and the text buffer `str` before the final encoding and trimming. -/
def withCode.records (rt : Runtime) (codes : Codes) (w : Err) (state : State) :
    Option (List JSONMap × String) :=
  formatLoop rt codes (list w).length (state.Flag '-') (state.Flag '+') (state.Flag '#')
    0 (list w) [] "" ""

/-- Go `(*withCode).Format`: the text written to the state, `none` when the method
panics.  The receiver `w` is a `withCode` node. -/
def withCode.Format (rt : Runtime) (codes : Codes) (w : Err) (state : State)
    (verb : Char) : Option String :=
  if verb == 'v' then
    match withCode.records rt codes w state with
    | none => none
    | some r =>
      let str := if state.Flag '#' then r.2 ++ rt.Marshal r.1 else r.2
      some (strings.Trim str "\r\n\t")
  else
    some (gofmt.Sprintf (buildFormatInfo codes w).message)

/-- Go `(*baseError).Format`: the text written to the state. -/
def baseError.Format (rt : Runtime) (msg : String) (stack : List Nat) (state : State)
    (verb : Char) : String :=
  if verb == 'v' then
    if state.Flag '+' then msg ++ errors.stack.FormatPlusV rt stack
    else msg
  else if verb == 's' then msg
  else if verb == 'q' then rt.Quote msg
  else ""

/-- Go `fmt.Sprintf("%+v", err)` for an error value: for a node of the package the text
its `Format` method writes for verb `v` with the flag `+` alone; for an error of another
package, which is no `fmt.Formatter`, its `Error()` text; `<nil>` for nil.  When the
`Format` method of a coded node panics, `fmt` recovers the panic and prints a marker. -/
def sprintPlusV (rt : Runtime) (codes : Codes) : Err → String
  | .nil => "<nil>"
  | .baseError msg stack => msg ++ errors.stack.FormatPlusV rt stack
  | .withStack error stack =>
    sprintPlusV rt codes error ++ errors.stack.FormatPlusV rt stack
  | .withMessage cause msg => sprintPlusV rt codes cause ++ "\n" ++ msg
  | .withCode err code cause stack =>
    match withCode.Format rt codes (.withCode err code cause stack) ⟨false, false, true⟩ 'v' with
    | some s => s
    | none => "%!v(PANIC=Format method: runtime error: index out of range [0] with length 0)"
  | .external text => text
  | .externalWrap text _ => text

/-- Go `(*withStack).Format`: the text written to the state; `error` and `stack` are the
fields of the receiver.  With verb `v` and the flag `+` it prints the embedded error with
`%+v` and then the frames of its own snapshot; otherwise the `Error()` text, which is
that of the embedded error. -/
def withStack.Format (rt : Runtime) (codes : Codes) (error : Err) (stack : List Nat)
    (state : State) (verb : Char) : String :=
  if verb == 'v' then
    if state.Flag '+' then sprintPlusV rt codes error ++ errors.stack.FormatPlusV rt stack
    else error.Error codes
  else if verb == 's' then error.Error codes
  else if verb == 'q' then rt.Quote (error.Error codes)
  else ""

/-- Go `(*withMessage).Format`: the text written to the state; `cause` and `msg` are the
fields of the receiver.  With verb `v` and the flag `+` it prints the cause with `%+v`, a
newline and its own message; otherwise its own message. -/
def withMessage.Format (rt : Runtime) (codes : Codes) (cause : Err) (msg : String)
    (state : State) (verb : Char) : String :=
  if verb == 'v' then
    if state.Flag '+' then sprintPlusV rt codes cause ++ "\n" ++ msg
    else msg
  else if verb == 's' || verb == 'q' then msg
  else ""

/-! ## Vocabulary of the statements -/

/-- Whether the error is a coded node: the type assertion `err.(*withCode)` succeeds. -/
def Err.isCoded : Err → Bool
  | .withCode .. => true
  | _ => false

/-- The code carried by a node, when it is a coded node. -/
def Err.code? : Err → Option Int
  | .withCode _ code _ _ => some code
  | _ => none

/-- The chain of an error along the `Cause` method: the error itself, then the chain of
what its `Cause()` returns; an error without the method ends the chain. -/
def causeChain : Err → List Err
  | .nil => []
  | .withStack error stack => .withStack error stack :: causeChain error
  | .withMessage cause msg => .withMessage cause msg :: causeChain cause
  | .withCode err code cause stack => .withCode err code cause stack :: causeChain cause
  | e => [e]

/-- A wrapping operation of the package that promotes over a coded error. -/
inductive Wrapper where
  | wrap (callers : List Nat) (message : String)
  | wrapf (callers : List Nat) (format : String)
  | withStack (callers : List Nat)
deriving DecidableEq, Repr

/-- The result of one wrapping operation on an error. -/
def Wrapper.apply : Wrapper → Err → Err
  | .wrap callers message, e => Wrap callers e message
  | .wrapf callers format, e => Wrapf callers e format
  | .withStack callers, e => WithStack callers e

/-- A stack of wrapping operations above an error; the head of the list is applied
last and so is the outermost node. -/
def wrapAll (ws : List Wrapper) (e : Err) : Err := ws.foldr Wrapper.apply e

/-- Repeated `Wrap`: one application per entry (snapshot and message), the head of the
list applied last. -/
def wraps (ws : List (List Nat × String)) (e : Err) : Err :=
  ws.foldr (fun w acc => Wrap w.1 acc w.2) e

/-- A node with no cause: a Base node, a coded node whose cause is nil, or an error of
another package (which has no `Cause` method). -/
def Err.hasNoCause : Err → Bool
  | .baseError .. => true
  | .withCode _ _ .nil _ => true
  | .external _ => true
  | .externalWrap .. => true
  | _ => false

/-- A root node: a node with no cause that also has nothing to unwrap (a Base node, a
coded node whose cause is nil, an error of another package without `Unwrap`). -/
def Err.isRoot : Err → Bool
  | .baseError .. => true
  | .withCode _ _ .nil _ => true
  | .external _ => true
  | _ => false

/-- Every snapshot owned by the node holds at least one frame, as `callers()` returns
for a call made from a running function. -/
def Err.framesOk : Err → Bool
  | .baseError _ stack => !stack.isEmpty
  | .withStack _ stack => !stack.isEmpty
  | .withCode _ _ _ stack => !stack.isEmpty
  | _ => true

/-- The error values a program can hold: nil, errors of other packages, and nodes of the
package.  The node types are unexported, so every node comes from a constructor of the
package, and its snapshot is what `callers()` stored during that call: `f` is the frame of
the function that called the constructor and `fs` are the frames above it. -/
inductive Built : Err → Prop
  | nil : Built .nil
  | external (text : String) : Built (.external text)
  | externalWrap (text : String) (inner : Err) :
    Built inner → Built (.externalWrap text inner)
  | baseError (msg : String) (f : Nat) (fs : List Nat) :
    Built (.baseError msg (callers (f :: fs)))
  | withStack (error : Err) (f : Nat) (fs : List Nat) :
    Built error → Built (.withStack error (callers (f :: fs)))
  | withMessage (cause : Err) (msg : String) :
    Built cause → Built (.withMessage cause msg)
  | withCode (err : String) (code : Int) (cause : Err) (f : Nat) (fs : List Nat) :
    Built cause → Built (.withCode err code cause (callers (f :: fs)))

/-- The snapshot a node owns: Base, StackWrap and CodeWrap nodes own one, a MessageWrap
node and an error of another package own none. -/
def Err.snapshot? : Err → Option (List Nat)
  | .baseError _ stack => some stack
  | .withStack _ stack => some stack
  | .withCode _ _ _ stack => some stack
  | _ => none

/-- The own message of a node in the terms of the data model: the message of a Base or
MessageWrap node, the detail text of a CodeWrap node, the text of an error of another
package, and for a StackWrap node, which has no message, the message of its cause. -/
def Err.ownMessage (codes : Codes) : Err → String
  | .nil => ""
  | .baseError msg _ => msg
  | .withStack error _ => error.Error codes
  | .withMessage _ msg => msg
  | .withCode err _ _ _ => err
  | .external text => text
  | .externalWrap text _ => text

/-- The code of a node's record in the terms of the data model: the node's code for a
coded node whose code is registered, the unknown code otherwise. -/
def Err.recordCode (codes : Codes) : Err → Int
  | .withCode _ code _ _ => if (codes code).isSome then code else unknownCoder.Code
  | _ => unknownCoder.Code

/-- The text of one record of a detail or trace render in the terms of the format
engine: the internal message, the ordinal marker, then the call site and the code when
the node owns a snapshot, then the external message. -/
def recordText (rt : Runtime) (k : Int) (finfo : formatInfo) : String :=
  match finfo.stack with
  | some (f :: _) =>
    finfo.err ++ (" - #" ++ (toString k ++ (" [" ++ (Frame.file rt f ++ (":"
      ++ (toString (Frame.line rt f) ++ (" (" ++ (Frame.name rt f ++ (")]("
      ++ (toString finfo.code ++ (") " ++ finfo.message)))))))))))
  | _ => finfo.err ++ (" - #" ++ (toString k ++ (" " ++ finfo.message)))

/-- The record texts of the nodes `errs`, the first one at index `k` of a chain of
`length` nodes: the node at index `i` carries the ordinal `length - i - 1`. -/
def recordTexts (rt : Runtime) (codes : Codes) (length : Int) : Int → List Err → List String
  | _, [] => []
  | k, e :: errs =>
    recordText rt (length - k - 1) (buildFormatInfo codes e)
      :: recordTexts rt codes length (k + 1) errs

/-- The `caller` text of one record of a structured detail or trace render in the terms
of the format engine: the ordinal marker, then the call site when the node owns a
snapshot. -/
def callerText (rt : Runtime) (k : Int) (finfo : formatInfo) : String :=
  match finfo.stack with
  | some (f :: _) =>
    "#" ++ toString k ++ " " ++ Frame.file rt f ++ ":" ++ toString (Frame.line rt f)
      ++ " (" ++ Frame.name rt f ++ ")"
  | _ => "#" ++ toString k

/-- The map of one record of a structured detail or trace render. -/
def recordMap (rt : Runtime) (k : Int) (finfo : formatInfo) : JSONMap :=
  [("message", .str finfo.message), ("code", .num finfo.code), ("error", .str finfo.err),
   ("caller", .str (callerText rt k finfo))]

/-- The record maps of the nodes `errs`, the first one at index `k` of a chain of
`length` nodes: the node at index `i` carries the ordinal `length - i - 1`. -/
def recordMaps (rt : Runtime) (codes : Codes) (length : Int) : Int → List Err → List JSONMap
  | _, [] => []
  | k, e :: errs =>
    recordMap rt (length - k - 1) (buildFormatInfo codes e)
      :: recordMaps rt codes length (k + 1) errs

/-- Whether the value is a coded node. -/
def Ptr.isCoded : Ptr → Bool
  | .withCode .. => true
  | _ => false

/-- The addresses of the nodes nested in an error value, the value's own node first. -/
def Ptr.addrs : Ptr → List Nat
  | .nil => []
  | .baseError addr _ _ => [addr]
  | .withStack addr error _ => addr :: error.addrs
  | .withMessage addr cause _ => addr :: cause.addrs
  | .withCode addr _ _ cause _ => addr :: cause.addrs
  | .external addr _ => [addr]
  | .externalWrap addr _ inner => addr :: inner.addrs

/-- The chain of an error along `Unwrap` with the identity of its nodes, as `listAux`
flattens it. -/
def Ptr.chainAux : Nat → Ptr → List Ptr
  | 0, _ => []
  | n + 1, e =>
    if e = .nil then []
    else
      match e.Unwrap? with
      | some u => e :: Ptr.chainAux n u
      | none => [e]

/-- The chain of an error along `Unwrap` with the identity of its nodes: the nodes that
`list` flattens (`chain_node`). -/
def Ptr.chain (e : Ptr) : List Ptr := Ptr.chainAux (e.depth + 1) e

/-- A runtime for the examples: one known function, a fixed encoding of records. -/
def exampleRuntime : Runtime :=
  { FuncForPC := fun pc =>
      if pc = 4198400 then
        some { Name := "main.query", FileLine := fun _ => ("/app/main.go", 42) }
      else none
    Marshal := fun recs => "records:" ++ toString recs.length
    Quote := fun s => s }

/-- A registry for the examples: code 100001 registered after initialisation. -/
def exampleCodes : Codes := fun k =>
  if k = 100001 then
    some { C := 100001, HTTP := 503, Ext := "service unavailable", Ref := "docs/100001" }
  else initCodes k

/-! ## Accesses to the registry and the lock `codeMux` -/

/-- What a call does to the shared state of `code.go`, in program order:
`codeMux.Lock()`, `codeMux.Unlock()`, a read of the map `codes` and a write to it, each
access with its key. -/
inductive Event where
  | lock
  | unlock
  | read (key : Int)
  | write (key : Int)
deriving DecidableEq, Repr

/-- The events of Go `Register`: the panic on code 0 comes before `codeMux.Lock()`;
otherwise the lock, the store `codes[coder.Code()] = coder` and the deferred unlock. -/
def Register.events (coder : Coder) : List Event :=
  if coder.Code = 0 then []
  else [.lock, .write coder.Code, .unlock]

/-- The events of Go `MustRegister`: the panic on code 0 comes before `codeMux.Lock()`;
otherwise the lock, the lookup `codes[coder.Code()]`, the store when the key is absent,
and the deferred unlock, which also runs when the call panics on a key that is present. -/
def MustRegister.events (codes : Codes) (coder : Coder) : List Event :=
  if coder.Code = 0 then []
  else if (codes coder.Code).isSome then [.lock, .read coder.Code, .unlock]
  else [.lock, .read coder.Code, .write coder.Code, .unlock]

/-- The events of the `Error` method of an error.  For `withCode` it is
`fmt.Sprintf("%v", w)`: `withCode.Format` without the trace flag calls `buildFormatInfo`
on the node itself, which looks up `codes[err.code]`. -/
def Err.ErrorEvents : Err → List Event
  | .withStack error _ => error.ErrorEvents
  | .withCode _ code _ _ => [.read code]
  | _ => []

/-- The events of Go `ParseCoder`: the lookup `codes[v.code]` on a coded node, nothing
else; the function never touches `codeMux`. -/
def ParseCoder.events (err : Err) : List Event :=
  match err with
  | .withCode _ code _ _ => [.read code]
  | _ => []

/-- The events of Go `buildFormatInfo`: the lookup `codes[err.code]` on a coded node, the
two calls of `err.Error()` on a `withStack` node and on a node of any other type, nothing
on a Base node; the function never touches `codeMux`. -/
def buildFormatInfo.events (e : Err) : List Event :=
  match e with
  | .baseError _ _ => []
  | .withCode _ code _ _ => [.read code]
  | _ => e.ErrorEvents ++ e.ErrorEvents

/-- Whether every access to the map in a sequence of events happens while the lock is
held; `held` tells whether the calling goroutine holds `codeMux` at the start. -/
def guardedFrom : Bool → List Event → Bool
  | _, [] => true
  | _, .lock :: es => guardedFrom true es
  | _, .unlock :: es => guardedFrom false es
  | held, .read _ :: es => held && guardedFrom held es
  | held, .write _ :: es => held && guardedFrom held es

/-- Lock discipline of one call: every access to the map happens while the call holds
`codeMux`. -/
def guarded (es : List Event) : Bool := guardedFrom false es

/-- The accesses to the map in a sequence of events, each with whether it is a write and
whether the lock is held at that point. -/
def accessesFrom : Bool → List Event → List (Bool × Bool)
  | _, [] => []
  | _, .lock :: es => accessesFrom true es
  | _, .unlock :: es => accessesFrom false es
  | held, .read _ :: es => (false, held) :: accessesFrom held es
  | held, .write _ :: es => (true, held) :: accessesFrom held es

/-- Two calls that run in different goroutines with nothing else ordering them have a
data race on the map `codes`: an access of one and an access of the other, at least one
of them a write, that are not both made under `codeMux`. -/
def races (es₁ es₂ : List Event) : Bool :=
  (accessesFrom false es₁).any fun a =>
    (accessesFrom false es₂).any fun b => (a.1 || b.1) && !(a.2 && b.2)

/-- The registry after the calls `Register(d)` for the descriptors of `ds`, in the order
of the list. -/
def registerAll (codes : Codes) (ds : List Coder) : Codes :=
  ds.foldl (fun c d => (Register c d).codes) codes

end errors

/-! ## Shutdown coordinator (package `pkg/shutdown`) -/

namespace shutdown

/-- Go `ShutdownManager`: the methods of a manager.  A method acts on the state of the
world `σ` (channels, the coordinator it is handed) and returns an error, `none` for
nil. -/
structure ShutdownManager (σ : Type) where
  GetName : String
  Start : σ → σ × Option String
  ShutdownStart : σ → σ × Option String
  ShutdownFinish : σ → σ × Option String

/-- Go `GracefulShutdown`. -/
structure GracefulShutdown (σ : Type) where
  callbacks : List (String → σ → σ × Option String)
  managers : List (ShutdownManager σ)
  errorHandler : Option (String → σ → σ)

/-- Go `New`: no callback, no manager, no error handler. -/
def New (σ : Type) : GracefulShutdown σ :=
  { callbacks := [], managers := [], errorHandler := none }

/-- Go `AddShutdownManager`: `gs.managers = append(gs.managers, manager)`. -/
def GracefulShutdown.AddShutdownManager {σ : Type} (gs : GracefulShutdown σ)
    (manager : ShutdownManager σ) : GracefulShutdown σ :=
  { gs with managers := gs.managers ++ [manager] }

/-- The loop of `GracefulShutdown.Start` over the managers that are left: the first
error ends the loop and is returned. -/
def startLoop {σ : Type} : List (ShutdownManager σ) → σ → σ × Option String
  | [], w => (w, none)
  | manager :: rest, w =>
    match manager.Start w with
    | (w1, some err) => (w1, some err)
    | (w1, none) => startLoop rest w1

/-- Go `GracefulShutdown.Start`: the world after the call and the error returned.  The
range expression `gs.managers` is evaluated once, when the loop starts. -/
def GracefulShutdown.Start {σ : Type} (gs : GracefulShutdown σ) (w : σ) : σ × Option String :=
  startLoop gs.managers w

/-- Go `fakeManager` of the tests: every method calls the function. -/
def fakeManager {σ : Type} (f : σ → σ × Option String) : ShutdownManager σ :=
  { GetName := "test-fake", Start := f, ShutdownStart := f, ShutdownFinish := f }

/-- A coordinator after `AddShutdownManager` was called for each manager of the list in
turn. -/
def withManagers {σ : Type} (ms : List (ShutdownManager σ)) : GracefulShutdown σ :=
  ms.foldl GracefulShutdown.AddShutdownManager (New σ)

/-- Every `Start` call of the run over `ms` from the world `w` succeeds: the first
manager returns nil on `w`, and so do the others on the world it leaves. -/
def startsSucceed {σ : Type} : List (ShutdownManager σ) → σ → Prop
  | [], _ => True
  | manager :: rest, w => (manager.Start w).2 = none ∧ startsSucceed rest (manager.Start w).1

/-- A manager whose `Start` records its name at the end of a log of the calls made and
returns nil. -/
def namedManager (name : String) : ShutdownManager (List String) :=
  { GetName := name
    Start := fun log => (log ++ [name], none)
    ShutdownStart := fun log => (log, none)
    ShutdownFinish := fun log => (log, none) }

namespace managers

/-- A Go `os.Signal`, as its signal number. -/
abbrev Signal := Nat

/-- Go `syscall.SIGINT`. -/
def SIGINT : Signal := 2

/-- Go `syscall.SIGTERM`. -/
def SIGTERM : Signal := 15

/-- Go `PosixSignalManager`. -/
structure PosixSignalManager where
  signals : List Signal
deriving DecidableEq, Repr

/-- Go `NewPosixSignalManager`.  The block of the `if` declares a new variable `sig`
(`sig := make(...)`) and fills it; that variable ends with the block, and the value
returned holds the parameter `sig`. -/
def NewPosixSignalManager (sig : List Signal) : PosixSignalManager := Id.run do
  if sig.length = 0 then
    let sig : List Signal := [SIGINT, SIGTERM]
    let _ := sig
  return { signals := sig }

end managers

end shutdown

namespace errors

/-! ## Basic facts -/

theorem initCodes_Keyed : initCodes.Keyed := by
  intro k d h
  unfold initCodes at h
  split at h
  · cases h
    simp_all
  · cases h

theorem update_Keyed (codes : Codes) (coder : Coder) (hk : codes.Keyed) :
    Codes.Keyed (fun k => if k = coder.Code then some coder else codes k) := by
  intro k d hd
  by_cases hkc : k = coder.Code
  · simp [hkc] at hd
    subst hd
    exact hkc.symm
  · simp [hkc] at hd
    exact hk k d hd

theorem Register_Keyed (codes : Codes) (coder : Coder) (hk : codes.Keyed) :
    (Register codes coder).codes.Keyed := by
  unfold Register
  split
  · exact hk
  · exact update_Keyed codes coder hk

theorem MustRegister_Keyed (codes : Codes) (coder : Coder) (hk : codes.Keyed) :
    (MustRegister codes coder).codes.Keyed := by
  unfold MustRegister
  split
  · exact hk
  · split
    · exact hk
    · exact update_Keyed codes coder hk

theorem exampleCodes_eq :
    (Register initCodes
      { C := 100001, HTTP := 503, Ext := "service unavailable", Ref := "docs/100001" }).codes
      = exampleCodes := rfl

theorem exampleCodes_Keyed : exampleCodes.Keyed :=
  exampleCodes_eq ▸ Register_Keyed _ _ initCodes_Keyed

theorem Wrapper_apply_coded (w : Wrapper) (err : String) (code : Int) (cause : Err)
    (stack : List Nat) :
    ∃ err' cause' stack', w.apply (.withCode err code cause stack)
      = .withCode err' code cause' stack' := by
  cases w <;> simp [Wrapper.apply, Wrap, Wrapf, WithStack]

theorem wrapAll_coded (ws : List Wrapper) (err : String) (code : Int) (cause : Err)
    (stack : List Nat) :
    ∃ err' cause' stack', wrapAll ws (.withCode err code cause stack)
      = .withCode err' code cause' stack' := by
  induction ws with
  | nil => exact ⟨err, cause, stack, rfl⟩
  | cons w ws ih =>
    obtain ⟨e1, c1, s1, h1⟩ := ih
    show ∃ err' cause' stack', w.apply (wrapAll ws (.withCode err code cause stack))
      = .withCode err' code cause' stack'
    rw [h1]
    exact Wrapper_apply_coded w e1 code c1 s1

/-! ## Code lookup and propagation -/

/-- C1 (counterexample): with code 100001 registered, `ParseCoder` of
`WithMessage(c, "ctx")` over a coded error `c` with that code, and of an error of another
package wrapping `c`, is the unknown descriptor and not the registered one; and
`ParseCoder` of a coded node with the unregistered code 42 is the unknown descriptor
although the node carries a code. -/
theorem ParseCoder_not_nearest_enclosing :
    ParseCoder exampleCodes (WithCode [4198401] 100001 "boom")
      = some { C := 100001, HTTP := 503, Ext := "service unavailable", Ref := "docs/100001" }
    ∧ ParseCoder exampleCodes (WithMessage (WithCode [4198401] 100001 "boom") "ctx")
      = some unknownCoder
    ∧ ParseCoder exampleCodes (.externalWrap "ctx: boom" (WithCode [4198401] 100001 "boom"))
      = some unknownCoder
    ∧ (WithCode [4198401] 42 "boom").code? = some 42
    ∧ ParseCoder exampleCodes (WithCode [4198401] 42 "boom") = some unknownCoder
    ∧ unknownCoder
      ≠ { C := 100001, HTTP := 503, Ext := "service unavailable", Ref := "docs/100001" } := by
  decide

/-- C1 (amended): `ParseCoder` inspects only the error it is given.  For a coded error
whose code is registered with descriptor `d` and every stack of `Wrap`, `Wrapf` and
`WithStack` applications above it, `ParseCoder` of the result is `d`.  It is the unknown
descriptor for every non-nil error none of whose chain nodes carries a code, for a coded
node whose code is not registered, and for an error of another package that wraps
another error. -/
theorem ParseCoder_outermost_node (codes : Codes) (err : String) (code : Int) (cause : Err)
    (stack : List Nat) (d : Coder) (hd : codes code = some d) :
    (∀ ws : List Wrapper,
      ParseCoder codes (wrapAll ws (.withCode err code cause stack)) = some d)
    ∧ (∀ e : Err, e ≠ .nil → (∀ n ∈ causeChain e, n.isCoded = false) →
      ParseCoder codes e = some unknownCoder)
    ∧ (∀ (err' : String) (code' : Int) (cause' : Err) (stack' : List Nat),
      codes code' = none →
      ParseCoder codes (.withCode err' code' cause' stack') = some unknownCoder)
    ∧ (∀ (text : String) (inner : Err),
      ParseCoder codes (.externalWrap text inner) = some unknownCoder) := by
  refine ⟨?_, ?_, ?_, ?_⟩
  · intro ws
    obtain ⟨e1, c1, s1, h1⟩ := wrapAll_coded ws err code cause stack
    rw [h1]
    simp [ParseCoder, hd]
  · intro e hne hall
    cases e with
    | nil => exact absurd rfl hne
    | withCode e1 c1 ca1 s1 =>
      have := hall (.withCode e1 c1 ca1 s1) (by simp [causeChain])
      simp [Err.isCoded] at this
    | baseError _ _ => rfl
    | withStack _ _ => rfl
    | withMessage _ _ => rfl
    | external _ => rfl
    | externalWrap _ _ => rfl
  · intro err' code' cause' stack' hnone
    simp [ParseCoder, hnone]
  · intro text inner
    rfl

theorem ParseCoder_outermost_node_witness :
    ParseCoder exampleCodes
        (wrapAll [.wrap [4198913] "handler", .withStack [4198657]]
          (.withCode "boom" 100001 .nil [4198401]))
      = some { C := 100001, HTTP := 503, Ext := "service unavailable", Ref := "docs/100001" }
    ∧ ParseCoder exampleCodes (.withCode "boom" 42 .nil [4198401]) = some unknownCoder :=
  ⟨(ParseCoder_outermost_node exampleCodes "boom" 100001 .nil [4198401]
      { C := 100001, HTTP := 503, Ext := "service unavailable", Ref := "docs/100001" }
      (by decide)).1 [.wrap [4198913] "handler", .withStack [4198657]],
   (ParseCoder_outermost_node exampleCodes "boom" 100001 .nil [4198401]
      { C := 100001, HTTP := 503, Ext := "service unavailable", Ref := "docs/100001" }
      (by decide)).2.2.1 "boom" 42 .nil [4198401] (by decide)⟩

/-- C2 (evaluation at the failing input): `IsCode` answers false for code 100001 on
`WithMessage(WithCode(100001, "boom"), "ctx")`, although the cause of that error is a
node carrying exactly code 100001; asked on the cause itself it answers true. -/
theorem IsCode_stops_at_uncoded_node :
    IsCode (WithMessage (WithCode [4198401] 100001 "boom") "ctx") 100001 = false
    ∧ WithCode [4198401] 100001 "boom"
      ∈ causeChain (WithMessage (WithCode [4198401] 100001 "boom") "ctx")
    ∧ (WithCode [4198401] 100001 "boom").code? = some 100001
    ∧ IsCode (WithCode [4198401] 100001 "boom") 100001 = true := by
  decide

/-- C3: for every coded error `c` and every message `m`, `Wrap(c, m)` and `Wrapf(c, m)`
are coded nodes carrying the code of `c` with `c` as their cause; `ParseCoder` of them
equals `ParseCoder(c)` and `IsCode` of them for the code of `c` is true. -/
theorem Wrap_propagates_code (codes : Codes) (callers : List Nat) (err : String)
    (code : Int) (cause : Err) (stack : List Nat) (m : String) :
    Wrap callers (.withCode err code cause stack) m
      = .withCode (gofmt.Sprintf m) code (.withCode err code cause stack) callers
    ∧ Wrapf callers (.withCode err code cause stack) m
      = .withCode (gofmt.Sprintf m) code (.withCode err code cause stack) callers
    ∧ ParseCoder codes (Wrap callers (.withCode err code cause stack) m)
      = ParseCoder codes (.withCode err code cause stack)
    ∧ ParseCoder codes (Wrapf callers (.withCode err code cause stack) m)
      = ParseCoder codes (.withCode err code cause stack)
    ∧ IsCode (Wrap callers (.withCode err code cause stack) m) code = true
    ∧ IsCode (Wrapf callers (.withCode err code cause stack) m) code = true := by
  refine ⟨rfl, rfl, rfl, rfl, ?_, ?_⟩ <;> simp [Wrap, Wrapf, IsCode]

/-- C4: for every non-nil cause, whatever its own code, every code `c` registered in a
registry whose entries are stored under their own code, and every message,
`ParseCoder(WrapC(cause, c, msg)).Code()` is `c`. -/
theorem WrapC_recodes (codes : Codes) (hk : codes.Keyed) (callers : List Nat) (cause : Err)
    (hne : cause ≠ .nil) (c : Int) (d : Coder) (hd : codes c = some d) (msg : String) :
    (ParseCoder codes (WrapC callers cause c msg)).map defaultCoder.Code = some c := by
  have hw : WrapC callers cause c msg = .withCode (gofmt.Sprintf msg) c cause callers := by
    cases cause <;> first | exact absurd rfl hne | rfl
  rw [hw]
  simp [ParseCoder, hd, hk c d hd]

theorem WrapC_recodes_witness :
    (ParseCoder exampleCodes
      (WrapC [4198401] (WithCode [4198657] 1 "db down") 100001 "query failed")).map
        defaultCoder.Code = some 100001 :=
  WrapC_recodes exampleCodes exampleCodes_Keyed [4198401] (WithCode [4198657] 1 "db down")
    (by decide) 100001
    { C := 100001, HTTP := 503, Ext := "service unavailable", Ref := "docs/100001" }
    (by decide) "query failed"

/-- C5 (evaluation at the failing input): `WithStack` over a coded error is a coded
node with the same code, but `WithMessage` and `WithMessagef` over the same error are
plain message nodes that carry no code. -/
theorem WithMessage_drops_code :
    (WithStack [4198401] (WithCode [4198657] 100001 "boom")).code? = some 100001
    ∧ WithMessage (WithCode [4198657] 100001 "boom") "ctx"
      = .withMessage (.withCode "boom" 100001 .nil [4198657]) "ctx"
    ∧ (WithMessage (WithCode [4198657] 100001 "boom") "ctx").isCoded = false
    ∧ (WithMessage (WithCode [4198657] 100001 "boom") "ctx").code? = none
    ∧ (WithMessagef (WithCode [4198657] 100001 "boom") "ctx").isCoded = false := by
  decide

/-! ## Chain traversal -/

theorem Wrap_ne_nil (callers : List Nat) (e : Err) (m : String) (h : e ≠ .nil) :
    Wrap callers e m ≠ .nil := by
  cases e <;> simp [Wrap] at h ⊢

theorem wraps_ne_nil (ws : List (List Nat × String)) (e : Err) (h : e ≠ .nil) :
    wraps ws e ≠ .nil := by
  induction ws with
  | nil => exact h
  | cons w ws ih => exact Wrap_ne_nil w.1 _ w.2 ih

theorem Cause_Wrap (callers : List Nat) (e : Err) (m : String) (h : e ≠ .nil) :
    Cause (Wrap callers e m) = Cause e := by
  cases e <;> simp [Wrap, Cause] at h ⊢

theorem Cause_hasNoCause (e : Err) (h : e.hasNoCause = true) : Cause e = e := by
  cases e with
  | withCode err code cause stack =>
    cases cause <;> simp [Err.hasNoCause] at h
    simp [Cause]
  | withStack _ _ => simp [Err.hasNoCause] at h
  | withMessage _ _ => simp [Err.hasNoCause] at h
  | nil => rfl
  | baseError _ _ => rfl
  | external _ => rfl
  | externalWrap _ _ => rfl

theorem hasNoCause_ne_nil (e : Err) (h : e.hasNoCause = true) : e ≠ .nil := by
  intro hn
  subst hn
  simp [Err.hasNoCause] at h

/-- C6: for every node `e` with no cause (a Base node, a coded node whose cause is nil,
an error of another package) and every sequence of applications of `Wrap`, with any
messages and snapshots, `Cause` of the result is `e` itself. -/
theorem Cause_wraps (e : Err) (h : e.hasNoCause = true) (ws : List (List Nat × String)) :
    Cause (wraps ws e) = e := by
  induction ws with
  | nil => exact Cause_hasNoCause e h
  | cons w ws ih =>
    have hne := wraps_ne_nil ws e (hasNoCause_ne_nil e h)
    show Cause (Wrap w.1 (wraps ws e) w.2) = e
    rw [Cause_Wrap _ _ _ hne, ih]

theorem Cause_wraps_witness :
    Cause (wraps [([4198401], "client error"), ([4198657], "read error")] (.external "EOF"))
      = .external "EOF" :=
  Cause_wraps (.external "EOF") (by decide) [([4198401], "client error"), ([4198657], "read error")]

theorem Unwrap?_depth (e u : Err) (h : Unwrap? e = some u) : u.depth < e.depth := by
  induction e generalizing u with
  | withStack error stack ih =>
    simp only [Unwrap?] at h
    cases hu : Unwrap? error with
    | none =>
      rw [hu] at h
      cases h
      simp [Err.depth]
    | some v =>
      rw [hu] at h
      cases h
      have := ih u hu
      simp [Err.depth]
      omega
  | withMessage cause msg _ =>
    simp only [Unwrap?] at h
    cases h
    simp [Err.depth]
  | withCode err code cause stack _ =>
    simp only [Unwrap?] at h
    cases h
    simp [Err.depth]
  | externalWrap text inner _ =>
    simp only [Unwrap?] at h
    cases h
    simp [Err.depth]
  | nil => simp [Unwrap?] at h
  | baseError _ _ => simp [Unwrap?] at h
  | external _ => simp [Unwrap?] at h

theorem listAux_fuel (n m : Nat) (e : Err) (hn : e.depth < n) (hm : e.depth < m) :
    listAux n e = listAux m e := by
  induction n generalizing m e with
  | zero => omega
  | succ n ih =>
    cases m with
    | zero => omega
    | succ m =>
      simp only [listAux]
      split
      · rfl
      · cases hu : Unwrap? e with
        | none => rfl
        | some u =>
          have hd := Unwrap?_depth e u hu
          simp only
          rw [ih m u (by omega) (by omega)]

/-- The recursion equation of Go `list`: the bound of `list` never cuts the chain. -/
theorem list_eq (e : Err) :
    list e = if e = .nil then []
      else match Unwrap? e with
        | some u => e :: list u
        | none => [e] := by
  by_cases he : e = .nil
  · subst he
    rfl
  · rw [if_neg he]
    cases hu : Unwrap? e with
    | none => simp [list, listAux, he, hu]
    | some u =>
      have hd := Unwrap?_depth e u hu
      have h1 : list e = e :: listAux e.depth u := by simp [list, listAux, he, hu]
      have h2 : list u = listAux (u.depth + 1) u := rfl
      rw [h1]
      show e :: listAux e.depth u = e :: list u
      rw [h2, listAux_fuel (e.depth) (u.depth + 1) u hd (by omega)]

theorem list_nil : list .nil = [] := rfl

theorem list_Wrap (callers : List Nat) (e : Err) (m : String) (h : e ≠ .nil) :
    list (Wrap callers e m) = Wrap callers e m :: list e := by
  rw [list_eq (Wrap callers e m), if_neg (Wrap_ne_nil callers e m h)]
  cases e <;> simp [Wrap, Unwrap?] at h ⊢

theorem list_isRoot (e : Err) (h : e.isRoot = true) : list e = [e] := by
  cases e with
  | withCode err code cause stack =>
    cases cause <;> simp [Err.isRoot] at h
    rfl
  | baseError _ _ => rfl
  | external _ => rfl
  | nil => simp [Err.isRoot] at h
  | withStack _ _ => simp [Err.isRoot] at h
  | withMessage _ _ => simp [Err.isRoot] at h
  | externalWrap _ _ => simp [Err.isRoot] at h

theorem isRoot_ne_nil (e : Err) (h : e.isRoot = true) : e ≠ .nil := by
  intro hn
  subst hn
  simp [Err.isRoot] at h

theorem list_wraps_cons (w : List Nat × String) (ws : List (List Nat × String)) (e : Err)
    (h : e ≠ .nil) :
    list (wraps (w :: ws) e) = wraps (w :: ws) e :: list (wraps ws e) :=
  list_Wrap w.1 (wraps ws e) w.2 (wraps_ne_nil ws e h)

/-! ## Library functions: formats without a verb, trimming -/

theorem parsenum_length (l : List Char) : ∀ (num : Nat) (isnum : Bool),
    (gofmt.parsenum num isnum l).2.length ≤ l.length := by
  induction l with
  | nil => intro num isnum; simp [gofmt.parsenum]
  | cons c cs ih =>
    intro num isnum
    simp only [gofmt.parsenum]
    split
    · split
      · simp
      · exact Nat.le_succ_of_le (ih _ _)
    · exact le_refl _

theorem argNumber_length (l : List Char) : (gofmt.argNumber l).1.length ≤ l.length := by
  unfold gofmt.argNumber
  split
  · simp
  · exact le_refl _

theorem width_length (l : List Char) (b : Bool) : (gofmt.width l b).2.1.length ≤ l.length := by
  unfold gofmt.width
  split
  · simp
  · exact parsenum_length _ _ _

theorem precision_length (l : List Char) (b : Bool) :
    (gofmt.precision l b).2.1.length ≤ l.length := by
  unfold gofmt.precision
  split
  · next rest =>
    have h := argNumber_length rest
    simp only
    split
    · next rest2 heq =>
      rw [heq] at h
      simp at h ⊢
      omega
    · have h2 := parsenum_length (gofmt.argNumber rest).1 0 false
      simp
      omega
  · exact le_refl _

theorem verb0_length (cs out rest : List Char) (h : gofmt.verb0 cs = (out, some rest)) :
    rest.length < cs.length := by
  have h0 : (cs.dropWhile gofmt.isFlag).length ≤ cs.length :=
    (List.dropWhile_sublist gofmt.isFlag).length_le
  unfold gofmt.verb0 at h
  simp only at h
  generalize cs.dropWhile gofmt.isFlag = f1 at h h0
  have h1 := argNumber_length f1
  generalize gofmt.argNumber f1 = a1 at h h1
  have h2 := width_length a1.1 a1.2.1
  generalize gofmt.width a1.1 a1.2.1 = w at h h2
  have h3 := precision_length w.2.1 w.2.2
  generalize gofmt.precision w.2.1 w.2.2 = p at h h3
  have h4 := argNumber_length p.2.1
  split at h
  · cases h
  · next v r heq =>
    have hr : rest = r := (Option.some.inj (Prod.mk.inj h).2).symm
    subst hr
    have h5 : (v :: rest).length ≤ p.2.1.length := by
      rw [← heq]
      split
      · exact le_refl _
      · exact h4
    simp only [List.length_cons] at h5
    omega

/-- The bound of `doPrintf` is never reached: any two bounds of at least the length of
the format give the same text. -/
theorem doPrintf_fuel (n : Nat) :
    ∀ (m : Nat) (l : List Char), l.length ≤ n → l.length ≤ m →
      gofmt.doPrintf n l = gofmt.doPrintf m l := by
  induction n with
  | zero =>
    intro m l hn _
    have : l = [] := List.length_eq_zero.mp (Nat.le_zero.mp hn)
    subst this
    cases m <;> rfl
  | succ n ih =>
    intro m l hn hm
    cases l with
    | nil => cases m <;> rfl
    | cons c cs =>
      cases m with
      | zero => simp at hm
      | succ m =>
        have hn' : cs.length ≤ n := by simpa using hn
        have hm' : cs.length ≤ m := by simpa using hm
        have hstep : ∀ k, gofmt.doPrintf (k + 1) (c :: cs)
            = if (c == '%') = true then
                (match gofmt.verb0 cs with
                  | (out, none) => out
                  | (out, some rest) => out ++ gofmt.doPrintf k rest)
              else c :: gofmt.doPrintf k cs := fun _ => rfl
        rw [hstep n, hstep m]
        split
        · cases hv : gofmt.verb0 cs with
          | mk out r =>
            cases r with
            | none => rfl
            | some rest =>
              have hl := verb0_length cs out rest hv
              simp only
              rw [ih m rest (by omega) (by omega)]
        · rw [ih m cs hn' hm']
theorem doPrintf_no_percent (n : Nat) (l : List Char) (h : '%' ∉ l) (hn : l.length ≤ n) :
    gofmt.doPrintf n l = l := by
  induction l generalizing n with
  | nil => cases n <;> rfl
  | cons c cs ih =>
    cases n with
    | zero => simp at hn
    | succ n =>
      have hc : c ≠ '%' := fun hc => h (by simp [hc])
      have hcs : '%' ∉ cs := fun hm => h (List.mem_cons_of_mem _ hm)
      have hlen : cs.length ≤ n := by simpa using hn
      have hb : (c == '%') = false := by
        cases hbe : (c == '%') with
        | false => rfl
        | true => exact absurd (eq_of_beq hbe) hc
      have hstep : gofmt.doPrintf (n + 1) (c :: cs)
          = if (c == '%') = true then
              (match gofmt.verb0 cs with
                | (out, none) => out
                | (out, some rest) => out ++ gofmt.doPrintf n rest)
            else c :: gofmt.doPrintf n cs := rfl
      rw [hstep, hb, ih n hcs hlen]
      rfl

theorem Sprintf_no_percent (s : String) (h : '%' ∉ s.data) : gofmt.Sprintf s = s := by
  cases s with
  | mk data =>
    show String.mk (gofmt.doPrintf data.length data) = String.mk data
    rw [doPrintf_no_percent _ _ h (le_refl _)]

theorem Trim_eq_self (s cutset : String)
    (hhead : ∀ c, s.data.head? = some c → cutset.data.contains c = false)
    (hlast : ∀ c, s.data.getLast? = some c → cutset.data.contains c = false) :
    strings.Trim s cutset = s := by
  unfold strings.Trim
  cases hs : s.data with
  | nil =>
    have : s = "" := by
      cases s
      simp_all
    subst this
    rfl
  | cons a l =>
    rw [hs] at hhead hlast
    have ha := hhead a rfl
    have h1 : List.dropWhile (fun c => cutset.data.contains c) (a :: l) = a :: l := by
      rw [List.dropWhile_cons, ha]
      rfl
    simp only [h1]
    cases hr : (a :: l).reverse with
    | nil => simp at hr
    | cons b r =>
      have hb : (a :: l).getLast? = some b := by
        rw [← List.head?_reverse, hr]
        rfl
      have hb' := hlast b hb
      have h2 : List.dropWhile (fun c => cutset.data.contains c) (b :: r) = b :: r := by
        rw [List.dropWhile_cons, hb']
        rfl
      rw [h2, ← hr, List.reverse_reverse, ← hs]

/-! ## Format engine -/

theorem Flag_sharp (state : State) : state.Flag '#' = state.sharp := rfl

theorem Flag_minus (state : State) : state.Flag '-' = state.minus := rfl

theorem Flag_plus (state : State) : state.Flag '+' = state.plus := rfl

theorem list_withCode (err : String) (code : Int) (cause : Err) (stack : List Nat) :
    list (.withCode err code cause stack) = .withCode err code cause stack :: list cause := by
  rw [list_eq]
  simp [Unwrap?]

theorem empty_append (s : String) : "" ++ s = s := by
  cases s
  rfl

/-- Without the trace flag the loop of `withCode.Format` formats the nearest node only. -/
theorem formatLoop_no_trace (rt : Runtime) (codes : Codes) (length : Int)
    (flagDetail modeJSON : Bool) (k : Int) (e : Err) (errs : List Err)
    (jsonData : List JSONMap) (str sep : String) :
    formatLoop rt codes length flagDetail false modeJSON k (e :: errs) jsonData str sep
      = format rt (length - k - 1) jsonData str (buildFormatInfo codes e) sep
          flagDetail false modeJSON := by
  simp only [formatLoop]
  cases format rt (length - k - 1) jsonData str (buildFormatInfo codes e) sep
      flagDetail false modeJSON <;> rfl

/-- The render of a coded node with no flag writes the formatted `message` of the
node's own record. -/
theorem records_terse (rt : Runtime) (codes : Codes) (err : String) (code : Int)
    (cause : Err) (stack : List Nat) :
    withCode.records rt codes (.withCode err code cause stack) ⟨false, false, false⟩
      = some ([], gofmt.Sprintf
          (buildFormatInfo codes (.withCode err code cause stack)).message) := by
  simp only [withCode.records, list_withCode, Flag_sharp, Flag_minus, Flag_plus,
    formatLoop_no_trace]
  simp only [format, empty_append]
  rfl

/-- The `Error` method of a coded node is its render with verb `v` and no flag. -/
theorem withCode_Error_eq_Format (rt : Runtime) (codes : Codes) (err : String) (code : Int)
    (cause : Err) (stack : List Nat) :
    withCode.Format rt codes (.withCode err code cause stack) ⟨false, false, false⟩ 'v'
      = some ((Err.withCode err code cause stack).Error codes) := by
  have hv : withCode.Format rt codes (.withCode err code cause stack) ⟨false, false, false⟩ 'v'
      = match withCode.records rt codes (.withCode err code cause stack)
          ⟨false, false, false⟩ with
        | none => none
        | some r => some (strings.Trim r.2 "\r\n\t") := rfl
  rw [hv, records_terse]
  simp only [buildFormatInfo, Err.Error]
  cases codes code <;> rfl

theorem buildFormatInfo_message (codes : Codes) (err : String) (code : Int) (cause : Err)
    (stack : List Nat) (d : Coder) (hd : codes code = some d) :
    (buildFormatInfo codes (.withCode err code cause stack)).message
      = if d.Ext = "" then err else d.Ext := by
  simp only [buildFormatInfo, hd, defaultCoder.String]

theorem Error_withCode (codes : Codes) (err : String) (code : Int) (cause : Err)
    (stack : List Nat) :
    (Err.withCode err code cause stack).Error codes
      = strings.Trim (gofmt.Sprintf
          (buildFormatInfo codes (.withCode err code cause stack)).message) "\r\n\t" := by
  simp only [buildFormatInfo, Err.Error]
  cases codes code <;> rfl

/-- C8 (counterexample): with code 100002 registered with an empty external text, the
render with no flag of `WrapC(New("db down"), 100002, "query failed")` is the internal
message "query failed" and not the registered external text, and it changes with the
internal message; with an external text that ends in a newline the render is not exactly
the text. -/
theorem terse_render_not_external_text :
    withCode.Format exampleRuntime
        (fun k => if k = 100002 then some { C := 100002, HTTP := 503, Ext := "", Ref := "" }
          else initCodes k)
        (WrapC [4198401] (New [4198401] "db down") 100002 "query failed")
        ⟨false, false, false⟩ 'v' = some "query failed"
    ∧ withCode.Format exampleRuntime
        (fun k => if k = 100002 then some { C := 100002, HTTP := 503, Ext := "", Ref := "" }
          else initCodes k)
        (WrapC [4198401] (New [4198401] "db down") 100002 "no rows")
        ⟨false, false, false⟩ 'v' = some "no rows"
    ∧ withCode.Format exampleRuntime
        (fun k => if k = 100003 then
            some { C := 100003, HTTP := 503, Ext := "service unavailable\n", Ref := "" }
          else initCodes k)
        (WrapC [4198401] (New [4198401] "db down") 100003 "query failed")
        ⟨false, false, false⟩ 'v' = some "service unavailable" := by
  decide

/-- C8 (amended): for a coded node whose code is registered with descriptor `d`, every
internal message and every cause, when the external text of `d` is not empty and holds
no `%`, the render with verb `v` and no flag, and hence `Error()`, is that text without
its leading and trailing CR, LF and TAB characters (exactly the text when it has none at
either end), and the render with verb `s` is exactly the text; when the external text
of `d` is empty the render is made from the node's internal message instead. -/
theorem terse_render_external_text (rt : Runtime) (codes : Codes) (err : String) (code : Int)
    (cause : Err) (stack : List Nat) (d : Coder) (hd : codes code = some d) :
    (d.Ext ≠ "" → '%' ∉ d.Ext.data →
      withCode.Format rt codes (.withCode err code cause stack) ⟨false, false, false⟩ 'v'
        = some (strings.Trim d.Ext "\r\n\t")
      ∧ (Err.withCode err code cause stack).Error codes = strings.Trim d.Ext "\r\n\t"
      ∧ (∀ state : State,
          withCode.Format rt codes (.withCode err code cause stack) state 's' = some d.Ext)
      ∧ ((∀ c, d.Ext.data.head? = some c → "\r\n\t".data.contains c = false) →
         (∀ c, d.Ext.data.getLast? = some c → "\r\n\t".data.contains c = false) →
          withCode.Format rt codes (.withCode err code cause stack) ⟨false, false, false⟩ 'v'
            = some d.Ext))
    ∧ (d.Ext = "" → '%' ∉ err.data →
      withCode.Format rt codes (.withCode err code cause stack) ⟨false, false, false⟩ 'v'
        = some (strings.Trim err "\r\n\t")) := by
  have hm := buildFormatInfo_message codes err code cause stack d hd
  have hE := Error_withCode codes err code cause stack
  have hF := withCode_Error_eq_Format rt codes err code cause stack
  refine ⟨?_, ?_⟩
  · intro hne hpc
    rw [if_neg hne] at hm
    rw [hm, Sprintf_no_percent _ hpc] at hE
    refine ⟨by rw [hF, hE], hE, ?_, ?_⟩
    · intro state
      have hs : withCode.Format rt codes (.withCode err code cause stack) state 's'
          = some (gofmt.Sprintf
              (buildFormatInfo codes (.withCode err code cause stack)).message) := rfl
      rw [hs, hm, Sprintf_no_percent _ hpc]
    · intro hhead hlast
      rw [hF, hE, Trim_eq_self _ _ hhead hlast]
  · intro he hpc
    rw [if_pos he] at hm
    rw [hm, Sprintf_no_percent _ hpc] at hE
    rw [hF, hE]

theorem terse_render_external_text_witness :
    withCode.Format exampleRuntime exampleCodes
        (WrapC [4198401] (New [4198401] "db down") 100001 "query failed")
        ⟨false, false, false⟩ 'v' = some "service unavailable" :=
  ((terse_render_external_text exampleRuntime exampleCodes "query failed" 100001
    (.baseError "db down" [4198401]) [4198401]
    { C := 100001, HTTP := 503, Ext := "service unavailable", Ref := "docs/100001" }
    (by decide)).1 (by decide) (by decide)).2.2.2 (by decide) (by decide)

/-- C9 (counterexample): the render with no flag of `New("db down")` is "db down", which
is not the external text of the unknown descriptor. -/
theorem terse_New_not_unknown_text :
    baseError.Format exampleRuntime "db down" [4198401] ⟨false, false, false⟩ 'v' = "db down"
    ∧ New [4198401] "db down" = .baseError "db down" [4198401]
    ∧ "db down" ≠ unknownCoder.String := by
  decide

/-- C9 (amended): for every message `m`, the render with no flag of `New(m)`, for verb
`v` and for verb `s`, and its `Error()` text, equal `m` itself. -/
theorem terse_New_is_message (rt : Runtime) (codes : Codes) (callers : List Nat)
    (m : String) :
    New callers m = .baseError m callers
    ∧ baseError.Format rt m callers ⟨false, false, false⟩ 'v' = m
    ∧ baseError.Format rt m callers ⟨false, false, false⟩ 's' = m
    ∧ (New callers m).Error codes = m :=
  ⟨rfl, rfl, rfl, rfl⟩

/-! ## Trace records -/

theorem buildFormatInfo_stack (codes : Codes) (e : Err) (h : e.framesOk = true) :
    (buildFormatInfo codes e).stack ≠ some [] := by
  cases e <;> simp [buildFormatInfo, Err.framesOk] at h ⊢ <;> exact h

theorem buildFormatInfo_err (codes : Codes) (e : Err) :
    (buildFormatInfo codes e).err = e.ownMessage codes := by
  cases e <;> rfl

theorem buildFormatInfo_code (codes : Codes) (hk : codes.Keyed) (e : Err) :
    (buildFormatInfo codes e).code = e.recordCode codes := by
  cases e with
  | withCode err code cause stack =>
    simp only [buildFormatInfo, Err.recordCode]
    cases hc : codes code with
    | none => rfl
    | some d => simp [hk code d hc]
  | nil => rfl
  | baseError _ _ => rfl
  | withStack _ _ => rfl
  | withMessage _ _ => rfl
  | external _ => rfl
  | externalWrap _ _ => rfl

/-- In structured mode with the detail or trace flag, `format` on a record whose
snapshot is absent or has a frame appends one map holding the record's fields. -/
theorem format_json_record (rt : Runtime) (k : Int) (jsonData : List JSONMap) (str : String)
    (finfo : formatInfo) (sep : String) (flagDetail flagTrace : Bool)
    (hf : (flagDetail || flagTrace) = true) (hs : finfo.stack ≠ some []) :
    ∃ caller, format rt k jsonData str finfo sep flagDetail flagTrace true
      = some (jsonData ++ [[("message", .str finfo.message), ("code", .num finfo.code),
          ("error", .str finfo.err), ("caller", .str caller)]], str) := by
  simp only [format, hf, if_true]
  cases hst : finfo.stack with
  | none => exact ⟨_, rfl⟩
  | some l =>
    cases l with
    | nil => exact absurd hst hs
    | cons f fs => exact ⟨_, rfl⟩

/-- With the trace flag in structured mode the loop appends one map per node, in the
order of the list. -/
theorem formatLoop_trace_json (rt : Runtime) (codes : Codes) (length : Int)
    (flagDetail : Bool) (errs : List Err) :
    ∀ (k : Int) (jsonData : List JSONMap) (str sep : String),
      (∀ e ∈ errs, e.framesOk = true) →
      ∃ recs, formatLoop rt codes length flagDetail true true k errs jsonData str sep
          = some (jsonData ++ recs, str)
        ∧ List.Forall₂ (fun e r => ∃ caller, r =
            [("message", JSONValue.str (buildFormatInfo codes e).message),
             ("code", JSONValue.num (buildFormatInfo codes e).code),
             ("error", JSONValue.str (buildFormatInfo codes e).err),
             ("caller", JSONValue.str caller)]) errs recs := by
  induction errs with
  | nil =>
    intro k jsonData str sep _
    exact ⟨[], by simp [formatLoop], List.Forall₂.nil⟩
  | cons e errs ih =>
    intro k jsonData str sep hall
    obtain ⟨caller, hfmt⟩ := format_json_record rt (length - k - 1) jsonData str
      (buildFormatInfo codes e) sep flagDetail true (by simp)
      (buildFormatInfo_stack codes e (hall e (List.mem_cons_self _ _)))
    obtain ⟨recs, hloop, hrecs⟩ := ih (k + 1)
      (jsonData ++ [[("message", JSONValue.str (buildFormatInfo codes e).message),
        ("code", JSONValue.num (buildFormatInfo codes e).code),
        ("error", JSONValue.str (buildFormatInfo codes e).err),
        ("caller", JSONValue.str caller)]]) str ";"
      (fun x hx => hall x (List.mem_cons_of_mem _ hx))
    refine ⟨_ :: recs, ?_, List.Forall₂.cons ⟨caller, rfl⟩ hrecs⟩
    simp only [formatLoop, hfmt]
    simpa using hloop

theorem list_wraps_facts (e : Err) (h : e.isRoot = true) (ws : List (List Nat × String)) :
    (list (wraps ws e)).length = ws.length + 1
    ∧ (list (wraps ws e)).head? = some (wraps ws e)
    ∧ (list (wraps ws e)).getLast? = some e := by
  induction ws with
  | nil =>
    show (list e).length = 1 ∧ (list e).head? = some e ∧ (list e).getLast? = some e
    rw [list_isRoot e h]
    exact ⟨rfl, rfl, rfl⟩
  | cons w ws ih =>
    rw [list_wraps_cons w ws e (isRoot_ne_nil e h)]
    obtain ⟨h1, _, h3⟩ := ih
    refine ⟨by simp [h1], rfl, ?_⟩
    cases hl : list (wraps ws e) with
    | nil => simp [hl] at h1
    | cons a l =>
      rw [hl] at h3
      rw [List.getLast?_cons_cons]
      exact h3

/-! ## Number of records -/

/-- In text mode with the detail or trace flag, `format` on a record whose snapshot is
absent or has a frame appends the separator and the text of the record. -/
theorem format_text_record (rt : Runtime) (k : Int) (jsonData : List JSONMap) (str : String)
    (finfo : formatInfo) (sep : String) (flagDetail flagTrace : Bool)
    (hf : (flagDetail || flagTrace) = true) (hs : finfo.stack ≠ some []) :
    format rt k jsonData str finfo sep flagDetail flagTrace false
      = some (jsonData, str ++ (sep ++ recordText rt k finfo)) := by
  simp only [format, hf, if_true, recordText]
  cases hst : finfo.stack with
  | none => simp [String.append_assoc]
  | some l =>
    cases l with
    | nil => exact absurd hst hs
    | cons f fs => simp [String.append_assoc]

theorem recordTexts_length (rt : Runtime) (codes : Codes) (length : Int) (errs : List Err) :
    ∀ k : Int, (recordTexts rt codes length k errs).length = errs.length := by
  induction errs with
  | nil => intro k; rfl
  | cons e errs ih => intro k; simp [recordTexts, ih]

/-- With the trace flag in text mode the loop appends, for every node in the order of
the list, the separator and the text of the node's record. -/
theorem formatLoop_trace_text (rt : Runtime) (codes : Codes) (length : Int)
    (flagDetail : Bool) (errs : List Err) :
    ∀ (k : Int) (jsonData : List JSONMap) (str : String),
      (∀ e ∈ errs, e.framesOk = true) →
      formatLoop rt codes length flagDetail true false k errs jsonData str ";"
        = some (jsonData, String.intercalate.go str ";" (recordTexts rt codes length k errs)) := by
  induction errs with
  | nil =>
    intro k jsonData str _
    simp [formatLoop, recordTexts, String.intercalate.go]
  | cons e errs ih =>
    intro k jsonData str hall
    have hfmt := format_text_record rt (length - k - 1) jsonData str
      (buildFormatInfo codes e) ";" flagDetail true (by simp)
      (buildFormatInfo_stack codes e (hall e (List.mem_cons_self _ _)))
    have hrest := ih (k + 1) jsonData (str ++ (";" ++ recordText rt (length - k - 1)
      (buildFormatInfo codes e))) (fun x hx => hall x (List.mem_cons_of_mem _ hx))
    simp only [formatLoop, hfmt]
    simp only [Bool.not_true, Bool.false_eq_true, if_false, Bool.and_false, Bool.false_and]
    rw [hrest]
    simp [recordTexts, String.intercalate.go, String.append_assoc]

/-- Without the trace flag the loop of `withCode.Format` on a coded node is one call of
`format`, on the record of the node itself. -/
theorem records_no_trace (rt : Runtime) (codes : Codes) (err : String) (code : Int)
    (cause : Err) (stack : List Nat) (state : State) (h : state.plus = false) :
    withCode.records rt codes (.withCode err code cause stack) state
      = format rt (((list (.withCode err code cause stack)).length : Int) - 1) [] ""
          (buildFormatInfo codes (.withCode err code cause stack)) ""
          state.minus false state.sharp := by
  simp only [withCode.records, Flag_sharp, Flag_minus, Flag_plus, h]
  rw [list_withCode, formatLoop_no_trace, sub_zero]

/-- With the trace flag in text mode the buffer of `withCode.Format` on a coded node is
the record texts of all nodes of the chain joined by `;`. -/
theorem records_trace_text (rt : Runtime) (codes : Codes) (err : String) (code : Int)
    (cause : Err) (stack : List Nat) (state : State) (hplus : state.plus = true)
    (hsharp : state.sharp = false)
    (hframes : ∀ n ∈ list (.withCode err code cause stack), n.framesOk = true) :
    withCode.records rt codes (.withCode err code cause stack) state
      = some ([], ";".intercalate (recordTexts rt codes
          (list (.withCode err code cause stack)).length 0
          (list (.withCode err code cause stack)))) := by
  simp only [withCode.records, Flag_sharp, Flag_minus, Flag_plus, hplus, hsharp]
  rw [list_withCode] at hframes ⊢
  have hfmt := format_text_record rt
    (((Err.withCode err code cause stack :: list cause).length : Int) - 0 - 1) [] ""
    (buildFormatInfo codes (.withCode err code cause stack)) "" state.minus true (by simp)
    (buildFormatInfo_stack codes _ (hframes _ (List.mem_cons_self _ _)))
  have hrest := formatLoop_trace_text rt codes
    ((Err.withCode err code cause stack :: list cause).length : Int) state.minus (list cause)
    (0 + 1) [] ("" ++ ("" ++ recordText rt
      (((Err.withCode err code cause stack :: list cause).length : Int) - 0 - 1)
      (buildFormatInfo codes (.withCode err code cause stack))))
    (fun x hx => hframes x (List.mem_cons_of_mem _ hx))
  simp only [formatLoop, hfmt]
  simp only [Bool.not_true, Bool.false_eq_true, if_false, Bool.and_false, Bool.false_and]
  rw [hrest]
  simp only [recordTexts, String.intercalate, empty_append]

/-- C11: for every coded node whose snapshots hold a frame, with a flattened chain of
`n` nodes (`n` at least 1): a render with the trace flag accumulates exactly `n` records,
`n` maps in structured mode and the `n` record texts joined by `;` in text mode; a render
without the trace flag accumulates exactly one record, that of the node itself: one map
in structured mode (its fields with the detail flag, its external message without), and
in text mode its record text with the detail flag and its external message without. -/
theorem record_count (rt : Runtime) (codes : Codes) (err : String) (code : Int)
    (cause : Err) (stack : List Nat) (state : State)
    (hframes : ∀ n ∈ list (.withCode err code cause stack), n.framesOk = true) :
    1 ≤ (list (.withCode err code cause stack)).length
    ∧ (state.plus = true → state.sharp = true →
        ∃ recs, withCode.records rt codes (.withCode err code cause stack) state
            = some (recs, "")
          ∧ recs.length = (list (.withCode err code cause stack)).length)
    ∧ (state.plus = true → state.sharp = false →
        withCode.records rt codes (.withCode err code cause stack) state
          = some ([], ";".intercalate (recordTexts rt codes
              (list (.withCode err code cause stack)).length 0
              (list (.withCode err code cause stack))))
        ∧ (recordTexts rt codes (list (.withCode err code cause stack)).length 0
              (list (.withCode err code cause stack))).length
            = (list (.withCode err code cause stack)).length)
    ∧ (state.plus = false → state.sharp = true → state.minus = true →
        ∃ caller, withCode.records rt codes (.withCode err code cause stack) state
          = some ([[("message",
                JSONValue.str (buildFormatInfo codes (.withCode err code cause stack)).message),
              ("code",
                JSONValue.num (buildFormatInfo codes (.withCode err code cause stack)).code),
              ("error", JSONValue.str err), ("caller", JSONValue.str caller)]], ""))
    ∧ (state.plus = false → state.sharp = true → state.minus = false →
        withCode.records rt codes (.withCode err code cause stack) state
          = some ([[("error",
              JSONValue.str (buildFormatInfo codes (.withCode err code cause stack)).message)]],
              ""))
    ∧ (state.plus = false → state.sharp = false → state.minus = true →
        withCode.records rt codes (.withCode err code cause stack) state
          = some ([], recordText rt
              (((list (.withCode err code cause stack)).length : Int) - 1)
              (buildFormatInfo codes (.withCode err code cause stack))))
    ∧ (state.plus = false → state.sharp = false → state.minus = false →
        withCode.records rt codes (.withCode err code cause stack) state
          = some ([], gofmt.Sprintf
              (buildFormatInfo codes (.withCode err code cause stack)).message)) := by
  have hself : (Err.withCode err code cause stack).framesOk = true :=
    hframes _ (by rw [list_withCode]; exact List.mem_cons_self _ _)
  have hstack := buildFormatInfo_stack codes _ hself
  refine ⟨by rw [list_withCode]; simp, ?_, ?_, ?_, ?_, ?_, ?_⟩
  · intro hplus hsharp
    obtain ⟨recs, hloop, hrecs⟩ := formatLoop_trace_json rt codes
      (list (.withCode err code cause stack)).length state.minus
      (list (.withCode err code cause stack)) 0 [] "" "" hframes
    refine ⟨recs, ?_, hrecs.length_eq.symm⟩
    simp only [withCode.records, Flag_sharp, Flag_minus, Flag_plus, hplus, hsharp]
    simpa using hloop
  · intro hplus hsharp
    exact ⟨records_trace_text rt codes err code cause stack state hplus hsharp hframes,
      recordTexts_length rt codes _ _ 0⟩
  · intro hplus hsharp hminus
    rw [records_no_trace rt codes err code cause stack state hplus, hsharp, hminus]
    obtain ⟨caller, hfmt⟩ := format_json_record rt
      (((list (.withCode err code cause stack)).length : Int) - 1) [] ""
      (buildFormatInfo codes (.withCode err code cause stack)) "" true false (by simp) hstack
    exact ⟨caller, by rw [hfmt]; rfl⟩
  · intro hplus hsharp hminus
    rw [records_no_trace rt codes err code cause stack state hplus, hsharp, hminus]
    rfl
  · intro hplus hsharp hminus
    rw [records_no_trace rt codes err code cause stack state hplus, hsharp, hminus,
      format_text_record rt _ [] "" _ "" true false (by simp) hstack]
    simp only [empty_append]
  · intro hplus hsharp hminus
    rw [records_no_trace rt codes err code cause stack state hplus, hsharp, hminus]
    simp only [format, empty_append]
    rfl

theorem record_count_witness :
    (∃ recs, withCode.records exampleRuntime exampleCodes
        (.withCode "query failed" 100001 (.baseError "db down" [4198401]) [4198401])
        ⟨true, false, true⟩ = some (recs, "")
      ∧ recs.length
        = (list (.withCode "query failed" 100001 (.baseError "db down" [4198401])
            [4198401])).length)
    ∧ withCode.records exampleRuntime exampleCodes
        (.withCode "query failed" 100001 (.baseError "db down" [4198401]) [4198401])
        ⟨false, true, false⟩
      = some ([], recordText exampleRuntime
          (((list (.withCode "query failed" 100001 (.baseError "db down" [4198401])
            [4198401])).length : Int) - 1)
          (buildFormatInfo exampleCodes
            (.withCode "query failed" 100001 (.baseError "db down" [4198401]) [4198401]))) :=
  ⟨(record_count exampleRuntime exampleCodes "query failed" 100001
      (.baseError "db down" [4198401]) [4198401] ⟨true, false, true⟩ (by decide)).2.1 rfl rfl,
   (record_count exampleRuntime exampleCodes "query failed" 100001
      (.baseError "db down" [4198401]) [4198401] ⟨false, true, false⟩
      (by decide)).2.2.2.2.2.1 rfl rfl rfl⟩

/-! ## Totality of the render -/

/-- When every snapshot of the chain holds a frame, the loop of `withCode.Format`
returns for every combination of the flags, whether or not the codes are registered. -/
theorem records_isSome (rt : Runtime) (codes : Codes) (err : String) (code : Int)
    (cause : Err) (stack : List Nat) (state : State)
    (hframes : ∀ n ∈ list (.withCode err code cause stack), n.framesOk = true) :
    ∃ r, withCode.records rt codes (.withCode err code cause stack) state = some r := by
  have hself : (Err.withCode err code cause stack).framesOk = true :=
    hframes _ (by rw [list_withCode]; exact List.mem_cons_self _ _)
  have hstack := buildFormatInfo_stack codes _ hself
  cases hplus : state.plus with
  | true =>
    cases hsharp : state.sharp with
    | true =>
      obtain ⟨recs, hloop, _⟩ := formatLoop_trace_json rt codes
        (list (.withCode err code cause stack)).length state.minus
        (list (.withCode err code cause stack)) 0 [] "" "" hframes
      refine ⟨([] ++ recs, ""), ?_⟩
      simp only [withCode.records, Flag_sharp, Flag_minus, Flag_plus, hplus, hsharp]
      exact hloop
    | false =>
      exact ⟨_, records_trace_text rt codes err code cause stack state hplus hsharp hframes⟩
  | false =>
    rw [records_no_trace rt codes err code cause stack state hplus]
    cases hminus : state.minus with
    | true =>
      cases hsharp : state.sharp with
      | true =>
        obtain ⟨caller, hfmt⟩ := format_json_record rt
          (((list (.withCode err code cause stack)).length : Int) - 1) [] ""
          (buildFormatInfo codes (.withCode err code cause stack)) "" true false (by simp)
          hstack
        exact ⟨_, hfmt⟩
      | false =>
        exact ⟨_, format_text_record rt _ [] "" _ "" true false (by simp) hstack⟩
    | false =>
      cases hsharp : state.sharp with
      | true => exact ⟨_, rfl⟩
      | false => exact ⟨_, rfl⟩

theorem callers_ne_nil (frames : List Nat) (h : frames ≠ []) : callers frames ≠ [] := by
  cases frames with
  | nil => exact absurd rfl h
  | cons f fs => simp [callers, stackDepth]

theorem callers_isEmpty (f : Nat) (fs : List Nat) : (callers (f :: fs)).isEmpty = false := by
  cases hc : callers (f :: fs) with
  | nil => exact absurd hc (callers_ne_nil _ (by simp))
  | cons _ _ => rfl

/-- A snapshot captured by `callers()` holds at most `stackDepth` frames. -/
theorem callers_length (frames : List Nat) : (callers frames).length ≤ stackDepth := by
  simp only [callers, List.length_take]
  exact Nat.min_le_left _ _

/-- Every constructor of the package, called from a running function on values the
program holds, returns a value the program can hold. -/
theorem constructors_Built (f : Nat) (fs : List Nat) (e : Err) (he : Built e)
    (m : String) (code : Int) :
    Built (New (callers (f :: fs)) m) ∧ Built (Errorf (callers (f :: fs)) m)
    ∧ Built (WithStack (callers (f :: fs)) e) ∧ Built (WithMessage e m)
    ∧ Built (WithMessagef e m) ∧ Built (WithCode (callers (f :: fs)) code m)
    ∧ Built (Wrap (callers (f :: fs)) e m) ∧ Built (Wrapf (callers (f :: fs)) e m)
    ∧ Built (WrapC (callers (f :: fs)) e code m) := by
  refine ⟨.baseError _ f fs, .baseError _ f fs, ?_, ?_, ?_, .withCode _ _ _ f fs .nil,
    ?_, ?_, ?_⟩
  · cases e <;> first | exact .nil | exact .withCode _ _ _ f fs he | exact .withStack _ f fs he
  · cases e <;> first | exact .nil | exact .withMessage _ _ he
  · cases e <;> first | exact .nil | exact .withMessage _ _ he
  · cases e <;> first
      | exact .nil
      | exact .withCode _ _ _ f fs he
      | exact .withStack _ f fs (.withMessage _ _ he)
  · cases e <;> first
      | exact .nil
      | exact .withCode _ _ _ f fs he
      | exact .withStack _ f fs (.withMessage _ _ he)
  · cases e <;> first | exact .nil | exact .withCode _ _ _ f fs he

theorem Built_framesOk (e : Err) (h : Built e) : e.framesOk = true := by
  cases h <;> simp [Err.framesOk, callers_isEmpty]

theorem Built_Unwrap? (e : Err) (h : Built e) : ∀ u, Unwrap? e = some u → Built u := by
  induction h with
  | nil => intro u hu; simp [Unwrap?] at hu
  | external text => intro u hu; simp [Unwrap?] at hu
  | externalWrap text inner hi _ =>
    intro u hu
    simp only [Unwrap?, Option.some.injEq] at hu
    exact hu ▸ hi
  | baseError msg f fs => intro u hu; simp [Unwrap?] at hu
  | withStack error f fs he ih =>
    intro u hu
    simp only [Unwrap?] at hu
    cases hx : Unwrap? error with
    | none =>
      rw [hx] at hu
      simp only [Option.some.injEq] at hu
      exact hu ▸ he
    | some x =>
      rw [hx] at hu
      simp only [Option.some.injEq] at hu
      exact ih u (hu ▸ hx)
  | withMessage cause msg hc _ =>
    intro u hu
    simp only [Unwrap?, Option.some.injEq] at hu
    exact hu ▸ hc
  | withCode err code cause f fs hc _ =>
    intro u hu
    simp only [Unwrap?, Option.some.injEq] at hu
    exact hu ▸ hc

theorem Built_listAux (n : Nat) : ∀ e : Err, Built e → ∀ x ∈ listAux n e, Built x := by
  induction n with
  | zero => intro e _ x hx; simp [listAux] at hx
  | succ n ih =>
    intro e he x hx
    simp only [listAux] at hx
    split at hx
    · simp at hx
    · cases hu : Unwrap? e with
      | none =>
        rw [hu] at hx
        simp only [List.mem_singleton] at hx
        exact hx ▸ he
      | some u =>
        rw [hu] at hx
        rcases List.mem_cons.mp hx with rfl | hmem
        · exact he
        · exact ih u (Built_Unwrap? e he u hu) x hmem

/-- Every node of the flattened chain of a value the program can hold owns a snapshot
with a frame, when it owns a snapshot. -/
theorem Built_list_framesOk (e : Err) (h : Built e) : ∀ n ∈ list e, n.framesOk = true :=
  fun n hn => Built_framesOk n (Built_listAux _ e h n hn)

/-- C12: for every coded node the program can hold, every chain beneath it, every verb
and every combination of the detail, trace and structured flags, `withCode.Format`
returns a string and does not panic, whether or not the codes of the chain are
registered.  The snapshots of such a chain are what `callers()` stored, and a capture
holds the frame of the constructor's caller however few frames the runtime records, so
none of them holds zero frames. -/
theorem render_never_fails (rt : Runtime) (codes : Codes) (err : String) (code : Int)
    (cause : Err) (stack : List Nat) (state : State) (verb : Char)
    (hb : Built (.withCode err code cause stack)) :
    ∃ s, withCode.Format rt codes (.withCode err code cause stack) state verb = some s := by
  obtain ⟨r, hr⟩ := records_isSome rt codes err code cause stack state
    (Built_list_framesOk _ hb)
  unfold withCode.Format
  split
  · rw [hr]
    exact ⟨_, rfl⟩
  · exact ⟨_, rfl⟩

theorem render_never_fails_witness :
    ∃ s, withCode.Format exampleRuntime exampleCodes
      (.withCode "query failed" 42 (.baseError "db down" (callers [4198401]))
        (callers [4198401]))
      ⟨true, true, true⟩ 'v' = some s :=
  render_never_fails exampleRuntime exampleCodes "query failed" 42
    (.baseError "db down" (callers [4198401])) (callers [4198401]) ⟨true, true, true⟩ 'v'
    (.withCode _ _ _ 4198401 [] (.baseError _ 4198401 []))

/-! ## Registry -/

/-- C13: for every coded node whose code is not in the registry, the record built for it
uses the unknown descriptor: its code is the unknown code 1 and its external message is
the unknown descriptor's text, while its internal message is the node's own message; the
render with no flag is that text. -/
theorem unregistered_record (rt : Runtime) (codes : Codes) (err : String) (code : Int)
    (cause : Err) (stack : List Nat) (h : codes code = none) :
    buildFormatInfo codes (.withCode err code cause stack)
      = { code := unknownCoder.Code, message := unknownCoder.String, err := err,
          stack := some stack }
    ∧ unknownCoder.Code = 1
    ∧ unknownCoder.String = "An internal server error occurred"
    ∧ (Err.withCode err code cause stack).ownMessage codes = err
    ∧ withCode.Format rt codes (.withCode err code cause stack) ⟨false, false, false⟩ 'v'
      = some "An internal server error occurred" := by
  refine ⟨?_, rfl, rfl, rfl, ?_⟩
  · simp only [buildFormatInfo, h]
    rfl
  · rw [withCode_Error_eq_Format]
    simp only [Err.Error, h]
    rfl

theorem unregistered_record_witness :
    buildFormatInfo exampleCodes (.withCode "boom" 42 .nil [4198401])
      = { code := 1, message := "An internal server error occurred", err := "boom",
          stack := some [4198401] } :=
  (unregistered_record exampleRuntime exampleCodes "boom" 42 .nil [4198401] (by decide)).1

/-- C14: for every descriptor `d` with a non-zero code and every prior registry state,
also one that already holds another descriptor under that code, `Register(d)` returns
normally and afterwards `ParseCoder` of a node coded `d.Code()` returns exactly `d`. -/
theorem Register_lookup (codes : Codes) (d : Coder) (h : d.Code ≠ 0) :
    (Register codes d).panic = none
    ∧ (Register codes d).codes d.Code = some d
    ∧ ∀ (err : String) (cause : Err) (stack : List Nat),
        ParseCoder (Register codes d).codes (.withCode err d.Code cause stack) = some d := by
  have hr : Register codes d
      = { codes := fun k => if k = d.Code then some d else codes k, panic := none } := by
    simp only [Register, if_neg h]
  rw [hr]
  refine ⟨rfl, by simp, ?_⟩
  intro err cause stack
  simp [ParseCoder]

theorem Register_lookup_witness :
    ParseCoder (Register exampleCodes
        { C := 100001, HTTP := 500, Ext := "try again later", Ref := "docs/v2" }).codes
        (.withCode "boom" 100001 .nil [4198401])
      = some { C := 100001, HTTP := 500, Ext := "try again later", Ref := "docs/v2" } :=
  (Register_lookup exampleCodes
    { C := 100001, HTTP := 500, Ext := "try again later", Ref := "docs/v2" }
    (by decide)).2.2 "boom" .nil [4198401]

/-- C15: for every registry state and every code not registered in it, `ParseCoder` of a
node carrying that code returns the unknown descriptor, whose `HTTPStatus` is 500; the
same holds for every non-nil error that is not a coded node. -/
theorem ParseCoder_unregistered (codes : Codes) (code : Int) (h : codes code = none) :
    (∀ (err : String) (cause : Err) (stack : List Nat),
      ParseCoder codes (.withCode err code cause stack) = some unknownCoder)
    ∧ unknownCoder.HTTPStatus = 500
    ∧ (∀ e : Err, e ≠ .nil → e.isCoded = false → ParseCoder codes e = some unknownCoder) := by
  refine ⟨?_, rfl, ?_⟩
  · intro err cause stack
    simp [ParseCoder, h]
  · intro e hne hun
    cases e with
    | nil => exact absurd rfl hne
    | withCode _ _ _ _ => simp [Err.isCoded] at hun
    | baseError _ _ => rfl
    | withStack _ _ => rfl
    | withMessage _ _ => rfl
    | external _ => rfl
    | externalWrap _ _ => rfl

theorem ParseCoder_unregistered_witness :
    ParseCoder exampleCodes (.withCode "boom" 42 .nil [4198401]) = some unknownCoder
    ∧ ParseCoder exampleCodes (.external "EOF") = some unknownCoder :=
  ⟨(ParseCoder_unregistered exampleCodes 42 (by decide)).1 "boom" .nil [4198401],
   (ParseCoder_unregistered exampleCodes 42 (by decide)).2.2 (.external "EOF")
     (by decide) rfl⟩

/-- C16: `Register` panics if and only if the descriptor's code is 0, and then it leaves
the registry unchanged; for every non-zero code it returns normally, whether or not the
code was already registered, with the descriptor stored under its code and every other
entry unchanged. -/
theorem Register_panics_iff (codes : Codes) (d : Coder) :
    ((Register codes d).panic ≠ none ↔ d.Code = 0)
    ∧ (d.Code = 0 → (Register codes d).codes = codes)
    ∧ (d.Code ≠ 0 →
        (Register codes d).panic = none
        ∧ (Register codes d).codes d.Code = some d
        ∧ ∀ k : Int, k ≠ d.Code → (Register codes d).codes k = codes k) := by
  by_cases h : d.Code = 0
  · have hr : Register codes d = { codes := codes, panic := some "请设置非0错误码" } := by
      simp only [Register, if_pos h]
    rw [hr]
    exact ⟨⟨fun _ => h, fun _ => by simp⟩, fun _ => rfl, fun hne => absurd h hne⟩
  · have hr : Register codes d
        = { codes := fun k => if k = d.Code then some d else codes k, panic := none } := by
      simp only [Register, if_neg h]
    rw [hr]
    refine ⟨⟨fun hp => absurd rfl hp, fun h0 => absurd h0 h⟩, fun h0 => absurd h0 h, ?_⟩
    intro _
    refine ⟨rfl, by simp, ?_⟩
    intro k hk
    simp [hk]

theorem Register_panics_iff_witness :
    (Register exampleCodes { C := 0, HTTP := 503, Ext := "zero", Ref := "" }).codes
      = exampleCodes
    ∧ (Register exampleCodes
        { C := 100001, HTTP := 500, Ext := "try again later", Ref := "docs/v2" }).panic = none :=
  ⟨(Register_panics_iff exampleCodes { C := 0, HTTP := 503, Ext := "zero", Ref := "" }).2.1
      rfl,
   ((Register_panics_iff exampleCodes
      { C := 100001, HTTP := 500, Ext := "try again later", Ref := "docs/v2" }).2.2
      (by decide)).1⟩

/-- C17: `MustRegister` panics if and only if the code is 0 or the code is already a key
of the registry.  Called twice with the same non-zero code that was absent before, the
first call returns normally and the second one panics with the duplicate-code value,
leaving the first descriptor registered. -/
theorem MustRegister_panics_on_duplicate (codes : Codes) (d : Coder) :
    ((MustRegister codes d).panic ≠ none ↔ (d.Code = 0 ∨ (codes d.Code).isSome = true))
    ∧ (∀ d' : Coder, d.Code ≠ 0 → codes d.Code = none → d'.Code = d.Code →
        (MustRegister codes d).panic = none
        ∧ (MustRegister codes d).codes d.Code = some d
        ∧ (MustRegister (MustRegister codes d).codes d').panic
          = some ("code: " ++ toString d.Code ++ " is already exist")
        ∧ (MustRegister (MustRegister codes d).codes d').codes d.Code = some d) := by
  constructor
  · by_cases h : d.Code = 0
    · have hr : MustRegister codes d = { codes := codes, panic := some "请设置非0错误码" } := by
        simp only [MustRegister, if_pos h]
      rw [hr]
      exact ⟨fun _ => Or.inl h, fun _ => by simp⟩
    · by_cases hs : (codes d.Code).isSome = true
      · have hr : MustRegister codes d
            = { codes := codes
                panic := some ("code: " ++ toString d.Code ++ " is already exist") } := by
          simp only [MustRegister, if_neg h, if_pos hs]
        rw [hr]
        exact ⟨fun _ => Or.inr hs, fun _ => by simp⟩
      · have hr : MustRegister codes d
            = { codes := fun k => if k = d.Code then some d else codes k, panic := none } := by
          simp only [MustRegister, if_neg h, if_neg hs]
        rw [hr]
        exact ⟨fun hp => absurd rfl hp, fun ho => ho.elim (fun h0 => absurd h0 h)
          (fun h1 => absurd h1 hs)⟩
  · intro d' h hnone hd'
    have hs : ¬ (codes d.Code).isSome = true := by simp [hnone]
    have hr : MustRegister codes d
        = { codes := fun k => if k = d.Code then some d else codes k, panic := none } := by
      simp only [MustRegister, if_neg h, if_neg hs]
    rw [hr]
    have h' : ¬ d'.Code = 0 := by rw [hd']; exact h
    have hr2 : MustRegister (fun k => if k = d.Code then some d else codes k) d'
        = { codes := fun k => if k = d.Code then some d else codes k
            panic := some ("code: " ++ toString d'.Code ++ " is already exist") } := by
      simp only [MustRegister, if_neg h']
      rw [if_pos (by simp [hd'])]
    rw [hr2, hd']
    exact ⟨rfl, by simp, rfl, by simp⟩

theorem MustRegister_panics_on_duplicate_witness :
    (MustRegister exampleCodes
        { C := 100002, HTTP := 404, Ext := "not found", Ref := "docs/100002" }).panic = none
    ∧ (MustRegister (MustRegister exampleCodes
          { C := 100002, HTTP := 404, Ext := "not found", Ref := "docs/100002" }).codes
          { C := 100002, HTTP := 400, Ext := "bad request", Ref := "" }).panic
        = some "code: 100002 is already exist" :=
  ⟨((MustRegister_panics_on_duplicate exampleCodes
      { C := 100002, HTTP := 404, Ext := "not found", Ref := "docs/100002" }).2
      { C := 100002, HTTP := 400, Ext := "bad request", Ref := "" }
      (by decide) (by decide) rfl).1,
   ((MustRegister_panics_on_duplicate exampleCodes
      { C := 100002, HTTP := 404, Ext := "not found", Ref := "docs/100002" }).2
      { C := 100002, HTTP := 400, Ext := "bad request", Ref := "" }
      (by decide) (by decide) rfl).2.2.1⟩

/-! ## Error texts -/

/-- C18 (counterexample): with code 100001 registered, `Wrap(c, "ctx").Error()` and
`Wrapf(c, "ctx").Error()` over the coded error `c = WithCode(100001, "boom")` are the
registered external text "service unavailable", not the message "ctx". -/
theorem Wrap_Error_not_message :
    (Wrap [4198657] (WithCode [4198401] 100001 "boom") "ctx").Error exampleCodes
      = "service unavailable"
    ∧ (Wrapf [4198657] (WithCode [4198401] 100001 "boom") "ctx").Error exampleCodes
      = "service unavailable"
    ∧ WithCode [4198401] 100001 "boom" ≠ .nil
    ∧ "service unavailable" ≠ "ctx" := by
  decide

/-- C18 (amended): for every non-nil error `err` that is not a coded node and every
message `m`, `Wrap(err, m).Error()` equals `m`, and `Wrapf(err, m).Error()` equals `m`
when `m` holds no `%`; this covers `io.EOF` and an already wrapped `io.EOF`.  Over a
coded error, `Wrap` and `Wrapf` build a coded node and its `Error()` is the render with
no flag: the external text registered for the code (when that text is not empty and
holds no `%`, without its leading and trailing CR, LF and TAB), whatever `m` is. -/
theorem Wrap_Error_uncoded (codes : Codes) (callers : List Nat) (err : Err) (m : String)
    (hne : err ≠ .nil) (hun : err.isCoded = false) :
    (Wrap callers err m).Error codes = m
    ∧ ('%' ∉ m.data → (Wrapf callers err m).Error codes = m)
    ∧ (∀ (e : String) (code : Int) (cause : Err) (stack : List Nat) (d : Coder),
        codes code = some d → d.Ext ≠ "" → '%' ∉ d.Ext.data →
        (Wrap callers (.withCode e code cause stack) m).Error codes
          = strings.Trim d.Ext "\r\n\t"
        ∧ (Wrapf callers (.withCode e code cause stack) m).Error codes
          = strings.Trim d.Ext "\r\n\t") := by
  refine ⟨?_, ?_, ?_⟩
  · cases err with
    | nil => exact absurd rfl hne
    | withCode _ _ _ _ => simp [Err.isCoded] at hun
    | baseError _ _ => rfl
    | withStack _ _ => rfl
    | withMessage _ _ => rfl
    | external _ => rfl
    | externalWrap _ _ => rfl
  · intro hpc
    have hs := Sprintf_no_percent m hpc
    cases err with
    | nil => exact absurd rfl hne
    | withCode _ _ _ _ => simp [Err.isCoded] at hun
    | baseError _ _ => simp only [Wrapf, Err.Error, hs]
    | withStack _ _ => simp only [Wrapf, Err.Error, hs]
    | withMessage _ _ => simp only [Wrapf, Err.Error, hs]
    | external _ => simp only [Wrapf, Err.Error, hs]
    | externalWrap _ _ => simp only [Wrapf, Err.Error, hs]
  · intro e code cause stack d hd hext hpc
    have key : ∀ (t : String) (c : Err) (st : List Nat),
        (Err.withCode t code c st).Error codes = strings.Trim d.Ext "\r\n\t" := by
      intro t c st
      rw [Error_withCode, buildFormatInfo_message codes t code c st d hd, if_neg hext,
        Sprintf_no_percent _ hpc]
    exact ⟨key _ _ _, key _ _ _⟩

theorem Wrap_Error_uncoded_witness :
    (Wrap [4198657] (Wrap [4198401] (.external "EOF") "read error") "client error").Error
      exampleCodes = "client error" :=
  (Wrap_Error_uncoded exampleCodes [4198657] (Wrap [4198401] (.external "EOF") "read error")
    "client error" (by decide) (by decide)).1

/-- C19: for every message `m`, also the empty string and a string with format verbs
such as "with format %v", `New(m).Error()` equals `m` verbatim. -/
theorem New_Error_verbatim (codes : Codes) (callers : List Nat) (m : String) :
    (New callers m).Error codes = m
    ∧ (New callers "").Error codes = ""
    ∧ (New callers "foo").Error codes = "foo"
    ∧ (New callers "with format %v").Error codes = "with format %v" :=
  ⟨rfl, rfl, rfl, rfl⟩

/-- C20: wrapping a nil cause creates no node: for every message, code and format,
`Wrap(nil, m)`, `Wrapf(nil, m)`, `WithStack(nil)`, `WithMessage(nil, m)`,
`WithMessagef(nil, m)` and `WrapC(nil, code, m)` all return nil. -/
theorem wrap_nil_is_nil (callers : List Nat) (m : String) (code : Int) :
    Wrap callers .nil m = .nil
    ∧ Wrapf callers .nil m = .nil
    ∧ WithStack callers .nil = .nil
    ∧ WithMessage .nil m = .nil
    ∧ WithMessagef .nil m = .nil
    ∧ WrapC callers .nil code m = .nil :=
  ⟨rfl, rfl, rfl, rfl, rfl, rfl⟩

/-! ## Shape of a wrap -/

/-- C21 (counterexample): `Wrap(io.EOF, "read error")` is not a plain message node: it is
a stack node that owns the snapshot captured by the call and embeds the message node. -/
theorem Wrap_uncoded_not_plain_message :
    Wrap [4198401] (.external "EOF") "read error"
      = .withStack (.withMessage (.external "EOF") "read error") [4198401]
    ∧ Wrap [4198401] (.external "EOF") "read error"
      ≠ .withMessage (.external "EOF") "read error"
    ∧ (buildFormatInfo exampleCodes (Wrap [4198401] (.external "EOF") "read error")).stack
      = some [4198401] := by
  decide

/-- C21 (amended): for every non-nil cause that is not a coded node and every message
`m`, `Wrap(cause, m)` is a stack node that owns the snapshot captured by the call and
embeds a message node with own message `m` and the given error as cause; its `Error()`
is `m` and its `Unwrap()` is the given error. -/
theorem Wrap_uncoded_shape (codes : Codes) (callers : List Nat) (cause : Err) (m : String)
    (hne : cause ≠ .nil) (hun : cause.isCoded = false) :
    Wrap callers cause m = .withStack (.withMessage cause m) callers
    ∧ (Wrap callers cause m).Error codes = m
    ∧ Unwrap (Wrap callers cause m) = cause
    ∧ (buildFormatInfo codes (Wrap callers cause m)).stack = some callers := by
  have hw : Wrap callers cause m = .withStack (.withMessage cause m) callers := by
    cases cause with
    | nil => exact absurd rfl hne
    | withCode _ _ _ _ => simp [Err.isCoded] at hun
    | baseError _ _ => rfl
    | withStack _ _ => rfl
    | withMessage _ _ => rfl
    | external _ => rfl
    | externalWrap _ _ => rfl
  rw [hw]
  exact ⟨rfl, rfl, rfl, rfl⟩

theorem Wrap_uncoded_shape_witness :
    Wrap [4198657] (New [4198401] "db down") "query failed"
      = .withStack (.withMessage (.baseError "db down" [4198401]) "query failed") [4198657] :=
  (Wrap_uncoded_shape exampleCodes [4198657] (New [4198401] "db down") "query failed"
    (by decide) rfl).1

/-! ## Chain-aware equality on nodes with identity -/

theorem node_eq_nil (e : Ptr) : e.node = .nil ↔ e = .nil := by
  cases e <;> simp [Ptr.node]

theorem node_depth (e : Ptr) : e.node.depth = e.depth := by
  induction e with
  | nil => rfl
  | baseError _ _ _ => rfl
  | withStack _ _ _ ih => simp only [Ptr.node, Err.depth, Ptr.depth, ih]
  | withMessage _ _ _ ih => simp only [Ptr.node, Err.depth, Ptr.depth, ih]
  | withCode _ _ _ _ _ ih => simp only [Ptr.node, Err.depth, Ptr.depth, ih]
  | external _ _ => rfl
  | externalWrap _ _ _ ih => simp only [Ptr.node, Err.depth, Ptr.depth, ih]

/-- The `Unwrap` method on values with identity is the `Unwrap` method of the value. -/
theorem node_Unwrap? (e : Ptr) : e.Unwrap?.map Ptr.node = Unwrap? e.node := by
  induction e with
  | nil => rfl
  | baseError _ _ _ => rfl
  | withStack _ error _ ih =>
    simp only [Ptr.Unwrap?, Ptr.node, Unwrap?]
    rw [← ih]
    cases error.Unwrap? <;> rfl
  | withMessage _ _ _ _ => rfl
  | withCode _ _ _ _ _ _ => rfl
  | external _ _ => rfl
  | externalWrap _ _ _ _ => rfl

theorem chainAux_nil (n : Nat) : Ptr.chainAux n .nil = [] := by
  cases n <;> simp [Ptr.chainAux]

theorem chainAux_succ (n : Nat) (e u : Ptr) (he : e ≠ .nil) (hu : e.Unwrap? = some u) :
    Ptr.chainAux (n + 1) e = e :: Ptr.chainAux n u := by
  simp only [Ptr.chainAux, if_neg he, hu]

theorem chainAux_node (n : Nat) :
    ∀ e : Ptr, (Ptr.chainAux n e).map Ptr.node = listAux n e.node := by
  induction n with
  | zero => intro e; rfl
  | succ n ih =>
    intro e
    by_cases he : e = .nil
    · subst he
      rfl
    · have hne : e.node ≠ .nil := fun h => he ((node_eq_nil e).mp h)
      have hu := node_Unwrap? e
      simp only [Ptr.chainAux, listAux, if_neg he, if_neg hne]
      cases hx : e.Unwrap? with
      | none =>
        rw [hx] at hu
        rw [← hu]
        rfl
      | some u =>
        rw [hx] at hu
        rw [← hu]
        simp only [Option.map_some', List.map_cons, ih]

/-- The chain with identities is the chain that `list` flattens. -/
theorem chain_node (e : Ptr) : (Ptr.chain e).map Ptr.node = list e.node := by
  unfold Ptr.chain list
  rw [node_depth]
  exact chainAux_node _ e

/-- The constructors on values with identity build the values of the constructors. -/
theorem node_constructors (a₁ a₂ : Nat) (callers : List Nat) (x : Ptr) (m : String) :
    (Ptr.New a₁ callers m).node = New callers m
    ∧ (Ptr.WithStack a₁ callers x).node = WithStack callers x.node
    ∧ (Ptr.Wrap a₁ a₂ callers x m).node = Wrap callers x.node m := by
  refine ⟨rfl, ?_, ?_⟩ <;> cases x <;> rfl

theorem isAux_iff (t : Ptr) (n : Nat) :
    ∀ e : Ptr, e ≠ .nil →
      (isAux n e t = true ↔ ∃ m ∈ Ptr.chainAux n e, m.same t = true) := by
  induction n with
  | zero => intro e _; simp [isAux, Ptr.chainAux]
  | succ n ih =>
    intro e he
    simp only [isAux, Ptr.chainAux, if_neg he]
    by_cases hs : e.same t = true
    · rw [if_pos hs]
      refine ⟨fun _ => ⟨e, ?_, hs⟩, fun _ => rfl⟩
      cases e.Unwrap? <;> simp
    · rw [if_neg hs]
      cases hu : e.Unwrap? with
      | none => simp [hs]
      | some u =>
        by_cases hun : u = .nil
        · subst hun
          simp [hs, chainAux_nil]
        · simp only [if_neg hun, ih u hun, List.mem_cons, exists_eq_or_imp, hs,
            Bool.false_eq_true, false_or]

/-- Go `Is` compares the target with exactly the nodes of the chain along `Unwrap`. -/
theorem Is_iff_chain (e t : Ptr) (ht : t ≠ .nil) :
    Is e t = true ↔ ∃ m ∈ Ptr.chain e, m.same t = true := by
  unfold Is
  by_cases he : e = .nil
  · subst he
    cases t with
    | nil => exact absurd rfl ht
    | baseError _ _ _ => simp [Ptr.chain, chainAux_nil, Ptr.same, Ptr.addr?]
    | withStack _ _ _ => simp [Ptr.chain, chainAux_nil, Ptr.same, Ptr.addr?]
    | withMessage _ _ _ => simp [Ptr.chain, chainAux_nil, Ptr.same, Ptr.addr?]
    | withCode _ _ _ _ _ => simp [Ptr.chain, chainAux_nil, Ptr.same, Ptr.addr?]
    | external _ _ => simp [Ptr.chain, chainAux_nil, Ptr.same, Ptr.addr?]
    | externalWrap _ _ _ => simp [Ptr.chain, chainAux_nil, Ptr.same, Ptr.addr?]
  · rw [if_neg (by simp [he, ht])]
    exact isAux_iff t _ e he

theorem addrs_of_ne_nil (x : Ptr) (h : x ≠ .nil) :
    ∃ a rest, x.addr? = some a ∧ x.addrs = a :: rest := by
  cases x with
  | nil => exact absurd rfl h
  | baseError a _ _ => exact ⟨a, _, rfl, rfl⟩
  | withStack a _ _ => exact ⟨a, _, rfl, rfl⟩
  | withMessage a _ _ => exact ⟨a, _, rfl, rfl⟩
  | withCode a _ _ _ _ => exact ⟨a, _, rfl, rfl⟩
  | external a _ => exact ⟨a, _, rfl, rfl⟩
  | externalWrap a _ _ => exact ⟨a, _, rfl, rfl⟩

/-- What `Unwrap` returns lies strictly beneath the node. -/
theorem Unwrap?_addrs (x : Ptr) :
    ∀ u, x.Unwrap? = some u →
      ∃ a rest, x.addr? = some a ∧ x.addrs = a :: rest ∧ u.addrs ⊆ rest := by
  induction x with
  | nil => intro u h; simp [Ptr.Unwrap?] at h
  | baseError _ _ _ => intro u h; simp [Ptr.Unwrap?] at h
  | external _ _ => intro u h; simp [Ptr.Unwrap?] at h
  | withStack a error s ih =>
    intro u h
    simp only [Ptr.Unwrap?] at h
    cases he : error.Unwrap? with
    | none =>
      rw [he] at h
      simp only [Option.some.injEq] at h
      exact ⟨a, error.addrs, rfl, rfl, h ▸ List.Subset.refl _⟩
    | some v =>
      rw [he] at h
      simp only [Option.some.injEq] at h
      obtain ⟨b, rest, _, hb, hsub⟩ := ih v he
      refine ⟨a, error.addrs, rfl, rfl, ?_⟩
      rw [← h, hb]
      exact fun z hz => List.mem_cons_of_mem _ (hsub hz)
  | withMessage a cause m _ =>
    intro u h
    simp only [Ptr.Unwrap?, Option.some.injEq] at h
    exact ⟨a, cause.addrs, rfl, rfl, h ▸ List.Subset.refl _⟩
  | withCode a err code cause s _ =>
    intro u h
    simp only [Ptr.Unwrap?, Option.some.injEq] at h
    exact ⟨a, cause.addrs, rfl, rfl, h ▸ List.Subset.refl _⟩
  | externalWrap a text inner _ =>
    intro u h
    simp only [Ptr.Unwrap?, Option.some.injEq] at h
    exact ⟨a, inner.addrs, rfl, rfl, h ▸ List.Subset.refl _⟩

/-- Every node of the chain of a value is one of the nodes nested in the value. -/
theorem chainAux_addrs (n : Nat) :
    ∀ (u m : Ptr), m ∈ Ptr.chainAux n u → ∃ a, m.addr? = some a ∧ a ∈ u.addrs := by
  induction n with
  | zero => intro u m h; simp [Ptr.chainAux] at h
  | succ n ih =>
    intro u m h
    by_cases hu : u = .nil
    · subst hu
      simp [Ptr.chainAux] at h
    · obtain ⟨a, rest, ha, hadd⟩ := addrs_of_ne_nil u hu
      have hself : ∃ b, u.addr? = some b ∧ b ∈ u.addrs :=
        ⟨a, ha, by rw [hadd]; exact List.mem_cons_self _ _⟩
      simp only [Ptr.chainAux, if_neg hu] at h
      cases hx : u.Unwrap? with
      | none =>
        rw [hx] at h
        simp only [List.mem_singleton] at h
        exact h ▸ hself
      | some v =>
        rw [hx] at h
        rcases List.mem_cons.mp h with rfl | hmem
        · exact hself
        · obtain ⟨b, hb, hbv⟩ := ih v m hmem
          obtain ⟨a', rest', _, hadd', hsub⟩ := Unwrap?_addrs u v hx
          exact ⟨b, hb, by rw [hadd']; exact List.mem_cons_of_mem _ (hsub hbv)⟩

/-- C22 (counterexample): for `x = WithStack(New("a"))`, which is the cause of
`WithStack(x)`, `Is(WithStack(x), x)` is false, and so is `Is` of `Wrap(io.EOF, "m")`
and the MessageWrap node that is its cause: the `Unwrap` of a StackWrap node skips
them.  (The nodes are allocated at the addresses 1, 2 and 3; `Is` compares pointers, so
two Base nodes with the same content at different addresses are not `Is`-equal.) -/
theorem Is_misses_wrapper_with_Unwrap :
    Is (Ptr.WithStack 3 [4198913] (Ptr.WithStack 2 [4198657] (Ptr.New 1 [4198401] "a")))
        (Ptr.WithStack 2 [4198657] (Ptr.New 1 [4198401] "a")) = false
    ∧ (Ptr.WithStack 2 [4198657] (Ptr.New 1 [4198401] "a")).node
      ∈ causeChain
          (Ptr.WithStack 3 [4198913] (Ptr.WithStack 2 [4198657] (Ptr.New 1 [4198401] "a"))).node
    ∧ (Ptr.WithStack 3 [4198913] (Ptr.WithStack 2 [4198657] (Ptr.New 1 [4198401] "a"))).node
      = WithStack [4198913] (WithStack [4198657] (New [4198401] "a"))
    ∧ Is (Ptr.Wrap 2 3 [4198657] (.external 1 "EOF") "m")
        (.withMessage 2 (.external 1 "EOF") "m") = false
    ∧ Err.withMessage (.external "EOF") "m"
      ∈ causeChain (Ptr.Wrap 2 3 [4198657] (.external 1 "EOF") "m").node
    ∧ Is (Ptr.New 1 [4198401] "a") (Ptr.New 2 [4198401] "a") = false
    ∧ (Ptr.New 1 [4198401] "a").node = (Ptr.New 2 [4198401] "a").node := by
  decide

/-- C22 (amended): `Is(e, t)` is true exactly when the target `t` is, as a pointer, one
of the nodes of the chain of `e` along `Unwrap`, the nodes that `list` flattens.  The
`Unwrap` of a StackWrap node skips an embedded error that has an `Unwrap` method of its
own, so for a non-nil error `x`, `Is(WithStack(x), x)` is true when `x` is a coded node
or has no `Unwrap` method (a Base node, an error of another package without `Unwrap`),
and false when `x` is an un-coded wrapper with an `Unwrap` method (the nodes of `x`
being distinct allocations and the node of `WithStack(x)` a new one). -/
theorem Is_unwrap_chain (e t x : Ptr) (a : Nat) (callers : List Nat) (ht : t ≠ .nil)
    (hx : x ≠ .nil) :
    (Is e t = true ↔ ∃ m ∈ Ptr.chain e, m.same t = true)
    ∧ (Ptr.chain e).map Ptr.node = list e.node
    ∧ (x.isCoded = true ∨ x.Unwrap? = none → Is (Ptr.WithStack a callers x) x = true)
    ∧ (x.isCoded = false → x.Unwrap? ≠ none → a ∉ x.addrs → x.addrs.Nodup →
        Is (Ptr.WithStack a callers x) x = false) := by
  refine ⟨Is_iff_chain e t ht, chain_node e, ?_, ?_⟩
  · intro h
    have hsame : x.same x = true := by simp [Ptr.same]
    have hstep : ∀ (n : Nat) (w : Ptr), w ≠ .nil → w.Unwrap? = some x →
        isAux (n + 1 + 1) w x = true := by
      intro n w _ hwu
      simp only [isAux, hwu, if_neg hx, hsame, if_true]
      split <;> rfl
    cases x with
    | nil => exact absurd rfl hx
    | withCode a1 e1 c1 ca1 s1 =>
      exact hstep _ (.withCode a e1 c1 (.withCode a1 e1 c1 ca1 s1) callers) (by simp) rfl
    | baseError a1 m1 s1 =>
      exact hstep _ (.withStack a (.baseError a1 m1 s1) callers) (by simp) rfl
    | external a1 t1 =>
      exact hstep _ (.withStack a (.external a1 t1) callers) (by simp) rfl
    | withStack _ _ _ =>
      simp only [Ptr.isCoded, Ptr.Unwrap?, Bool.false_eq_true, false_or] at h
      split at h <;> simp at h
    | withMessage _ _ _ => simp [Ptr.isCoded, Ptr.Unwrap?] at h
    | externalWrap _ _ _ => simp [Ptr.isCoded, Ptr.Unwrap?] at h
  · intro hun hu hfresh hnd
    cases hux : x.Unwrap? with
    | none => exact absurd hux hu
    | some u =>
      have hw : Ptr.WithStack a callers x = .withStack a x callers := by
        cases x with
        | nil => exact absurd rfl hx
        | withCode _ _ _ _ _ => simp [Ptr.isCoded] at hun
        | baseError _ _ _ => rfl
        | withStack _ _ _ => rfl
        | withMessage _ _ _ => rfl
        | external _ _ => rfl
        | externalWrap _ _ _ => rfl
      obtain ⟨ax, rest, hax, hadd, hsub⟩ := Unwrap?_addrs x u hux
      rw [hadd] at hfresh hnd
      have hwu : (Ptr.withStack a x callers).Unwrap? = some u := by
        simp only [Ptr.Unwrap?, hux]
      rw [hw]
      cases hIs : Is (.withStack a x callers) x with
      | false => rfl
      | true =>
        exfalso
        obtain ⟨m, hm, hms⟩ := (Is_iff_chain _ _ hx).mp hIs
        simp only [Ptr.same, beq_iff_eq, hax] at hms
        have hch : Ptr.chain (.withStack a x callers)
            = .withStack a x callers :: Ptr.chainAux (x.depth + 1) u :=
          chainAux_succ _ _ _ (by simp) hwu
        rw [hch] at hm
        rcases List.mem_cons.mp hm with rfl | hmem
        · simp only [Ptr.addr?, Option.some.injEq] at hms
          exact hfresh (hms ▸ List.mem_cons_self _ _)
        · obtain ⟨b, hb, hbu⟩ := chainAux_addrs _ u m hmem
          rw [hb, Option.some.injEq] at hms
          exact (List.nodup_cons.mp hnd).1 (hms ▸ hsub hbu)

theorem Is_unwrap_chain_witness :
    Is (Ptr.Wrap 4 5 [4198657] (Ptr.Wrap 2 3 [4198401] (.external 1 "EOF") "read error")
          "client error") (.external 1 "EOF") = true
    ∧ Is (Ptr.WithStack 2 [4198657] (Ptr.New 1 [4198401] "a")) (Ptr.New 1 [4198401] "a")
        = true
    ∧ Is (Ptr.WithStack 3 [4198913] (Ptr.WithStack 2 [4198657] (Ptr.New 1 [4198401] "a")))
        (Ptr.WithStack 2 [4198657] (Ptr.New 1 [4198401] "a")) = false :=
  ⟨(Is_unwrap_chain
      (Ptr.Wrap 4 5 [4198657] (Ptr.Wrap 2 3 [4198401] (.external 1 "EOF") "read error")
        "client error")
      (.external 1 "EOF") (Ptr.New 1 [4198401] "a") 2 [4198657] (by decide)
      (by decide)).1.mpr (by decide),
   (Is_unwrap_chain (.external 1 "EOF") (.external 1 "EOF") (Ptr.New 1 [4198401] "a") 2
      [4198657] (by decide) (by decide)).2.2.1 (Or.inr rfl),
   (Is_unwrap_chain (.external 1 "EOF") (.external 1 "EOF")
      (Ptr.WithStack 2 [4198657] (Ptr.New 1 [4198401] "a")) 3 [4198913] (by decide)
      (by decide)).2.2.2 rfl (by decide) (by decide) (by decide)⟩

/-- C23: for every descriptor, `HTTPStatus()` returns 500 when the stored status is 0 and
the stored status unchanged otherwise. -/
theorem HTTPStatus_default (coder : defaultCoder) :
    (coder.HTTP = 0 → coder.HTTPStatus = 500)
    ∧ (coder.HTTP ≠ 0 → coder.HTTPStatus = coder.HTTP) := by
  constructor
  · intro h
    simp [defaultCoder.HTTPStatus, h]
  · intro h
    simp [defaultCoder.HTTPStatus, h]

theorem HTTPStatus_default_witness :
    ({ C := 7, HTTP := 0, Ext := "x", Ref := "" } : defaultCoder).HTTPStatus = 500
    ∧ ({ C := 7, HTTP := 404, Ext := "x", Ref := "" } : defaultCoder).HTTPStatus = 404 :=
  ⟨(HTTPStatus_default { C := 7, HTTP := 0, Ext := "x", Ref := "" }).1 rfl,
   (HTTPStatus_default { C := 7, HTTP := 404, Ext := "x", Ref := "" }).2 (by decide)⟩

/-! ## Ordinal markers -/

/-- In structured mode with the detail or trace flag, `format` on a record whose
snapshot is absent or has a frame appends the map of the record. -/
theorem format_json_map (rt : Runtime) (k : Int) (jsonData : List JSONMap) (str : String)
    (finfo : formatInfo) (sep : String) (flagDetail flagTrace : Bool)
    (hf : (flagDetail || flagTrace) = true) (hs : finfo.stack ≠ some []) :
    format rt k jsonData str finfo sep flagDetail flagTrace true
      = some (jsonData ++ [recordMap rt k finfo], str) := by
  simp only [format, hf, if_true, recordMap, callerText]
  cases hst : finfo.stack with
  | none => rfl
  | some l =>
    cases l with
    | nil => exact absurd hst hs
    | cons f fs => rfl

/-- With the trace flag in structured mode the loop appends the map of every node, in
the order of the list. -/
theorem formatLoop_trace_maps (rt : Runtime) (codes : Codes) (length : Int)
    (flagDetail : Bool) (errs : List Err) :
    ∀ (k : Int) (jsonData : List JSONMap) (str sep : String),
      (∀ e ∈ errs, e.framesOk = true) →
      formatLoop rt codes length flagDetail true true k errs jsonData str sep
        = some (jsonData ++ recordMaps rt codes length k errs, str) := by
  induction errs with
  | nil =>
    intro k jsonData str sep _
    simp [formatLoop, recordMaps]
  | cons e errs ih =>
    intro k jsonData str sep hall
    have hfmt := format_json_map rt (length - k - 1) jsonData str
      (buildFormatInfo codes e) sep flagDetail true (by simp)
      (buildFormatInfo_stack codes e (hall e (List.mem_cons_self _ _)))
    have hrest := ih (k + 1) (jsonData ++ [recordMap rt (length - k - 1)
      (buildFormatInfo codes e)]) str ";" (fun x hx => hall x (List.mem_cons_of_mem _ hx))
    simp only [formatLoop, hfmt]
    simp only [Bool.not_true, Bool.false_eq_true, if_false, Bool.and_false, Bool.false_and]
    rw [hrest]
    simp [recordMaps]

theorem recordTexts_getElem? (rt : Runtime) (codes : Codes) (length : Int)
    (errs : List Err) :
    ∀ (k : Int) (i : Nat) (e : Err), errs[i]? = some e →
      (recordTexts rt codes length k errs)[i]?
        = some (recordText rt (length - (k + i) - 1) (buildFormatInfo codes e)) := by
  induction errs with
  | nil => intro k i e h; simp at h
  | cons a errs ih =>
    intro k i e h
    cases i with
    | zero =>
      simp only [List.getElem?_cons_zero, Option.some.injEq] at h
      subst h
      simp [recordTexts]
    | succ i =>
      simp only [List.getElem?_cons_succ] at h
      have := ih (k + 1) i e h
      simp only [recordTexts, List.getElem?_cons_succ, this]
      congr 2
      push_cast
      ring_nf

theorem recordMaps_getElem? (rt : Runtime) (codes : Codes) (length : Int)
    (errs : List Err) :
    ∀ (k : Int) (i : Nat) (e : Err), errs[i]? = some e →
      (recordMaps rt codes length k errs)[i]?
        = some (recordMap rt (length - (k + i) - 1) (buildFormatInfo codes e)) := by
  induction errs with
  | nil => intro k i e h; simp at h
  | cons a errs ih =>
    intro k i e h
    cases i with
    | zero =>
      simp only [List.getElem?_cons_zero, Option.some.injEq] at h
      subst h
      simp [recordMaps]
    | succ i =>
      simp only [List.getElem?_cons_succ] at h
      have := ih (k + 1) i e h
      simp only [recordMaps, List.getElem?_cons_succ, this]
      congr 2
      push_cast
      ring_nf

theorem recordText_marker (rt : Runtime) (k : Int) (finfo : formatInfo) :
    ∃ rest, recordText rt k finfo = finfo.err ++ (" - #" ++ (toString k ++ rest)) := by
  unfold recordText
  split
  · exact ⟨_, rfl⟩
  · exact ⟨_, rfl⟩

theorem callerText_marker (rt : Runtime) (k : Int) (finfo : formatInfo) :
    ∃ rest, callerText rt k finfo = "#" ++ toString k ++ rest := by
  unfold callerText
  split
  · next f _ _ =>
    exact ⟨" " ++ (Frame.file rt f ++ (":" ++ (toString (Frame.line rt f)
      ++ (" (" ++ (Frame.name rt f ++ ")"))))), by simp only [String.append_assoc]⟩
  · exact ⟨"", by simp⟩

/-- C27: in a detail or trace render of a coded node whose chain flattens to `n` nodes
(snapshots holding a frame), the entry of the node at flattened position `i` carries the
ordinal marker `#(n-1-i)`: with the trace flag, the text entries joined by `;` and the
maps of the structured render are those of the nodes in order, each with the ordinal
`n-1-i`, so the root carries `#0`; with the detail flag alone the only entry is that of
the nearest node with the ordinal `n-1`.  A text entry holds `#` and the ordinal after
the internal message, a map holds them at the start of `caller`. -/
theorem ordinal_markers (rt : Runtime) (codes : Codes) (err : String) (code : Int)
    (cause : Err) (stack : List Nat) (state : State)
    (hframes : ∀ n ∈ list (.withCode err code cause stack), n.framesOk = true) :
    (state.plus = true → state.sharp = false →
      withCode.records rt codes (.withCode err code cause stack) state
        = some ([], ";".intercalate (recordTexts rt codes
            (list (.withCode err code cause stack)).length 0
            (list (.withCode err code cause stack))))
      ∧ ∀ (i : Nat) (e : Err), (list (.withCode err code cause stack))[i]? = some e →
          (recordTexts rt codes (list (.withCode err code cause stack)).length 0
              (list (.withCode err code cause stack)))[i]?
            = some (recordText rt
                (((list (.withCode err code cause stack)).length : Int) - 1 - i)
                (buildFormatInfo codes e)))
    ∧ (state.plus = true → state.sharp = true →
      withCode.records rt codes (.withCode err code cause stack) state
        = some (recordMaps rt codes (list (.withCode err code cause stack)).length 0
            (list (.withCode err code cause stack)), "")
      ∧ ∀ (i : Nat) (e : Err), (list (.withCode err code cause stack))[i]? = some e →
          (recordMaps rt codes (list (.withCode err code cause stack)).length 0
              (list (.withCode err code cause stack)))[i]?
            = some (recordMap rt
                (((list (.withCode err code cause stack)).length : Int) - 1 - i)
                (buildFormatInfo codes e)))
    ∧ (state.plus = false → state.minus = true → state.sharp = false →
      withCode.records rt codes (.withCode err code cause stack) state
        = some ([], recordText rt
            (((list (.withCode err code cause stack)).length : Int) - 1)
            (buildFormatInfo codes (.withCode err code cause stack))))
    ∧ (state.plus = false → state.minus = true → state.sharp = true →
      withCode.records rt codes (.withCode err code cause stack) state
        = some ([recordMap rt
            (((list (.withCode err code cause stack)).length : Int) - 1)
            (buildFormatInfo codes (.withCode err code cause stack))], ""))
    ∧ (∀ (e : Err),
        (list (.withCode err code cause stack))[
          (list (.withCode err code cause stack)).length - 1]? = some e →
        (recordTexts rt codes (list (.withCode err code cause stack)).length 0
            (list (.withCode err code cause stack)))[
          (list (.withCode err code cause stack)).length - 1]?
          = some (recordText rt 0 (buildFormatInfo codes e)))
    ∧ (∀ (k : Int) (finfo : formatInfo),
        ∃ rest, recordText rt k finfo = finfo.err ++ (" - #" ++ (toString k ++ rest)))
    ∧ (∀ (k : Int) (finfo : formatInfo),
        ∃ rest, callerText rt k finfo = "#" ++ toString k ++ rest) := by
  have hself : (Err.withCode err code cause stack).framesOk = true :=
    hframes _ (by rw [list_withCode]; exact List.mem_cons_self _ _)
  have hstack := buildFormatInfo_stack codes _ hself
  have hpos : 1 ≤ (list (.withCode err code cause stack)).length := by
    rw [list_withCode]
    simp
  have hidx : ∀ (L : Int) (i : Nat), L - (0 + (i : Int)) - 1 = L - 1 - i := by
    intro L i
    ring
  refine ⟨?_, ?_, ?_, ?_, ?_, recordText_marker rt, callerText_marker rt⟩
  · intro hplus hsharp
    refine ⟨records_trace_text rt codes err code cause stack state hplus hsharp hframes, ?_⟩
    intro i e hi
    rw [recordTexts_getElem? rt codes _ _ 0 i e hi, hidx]
  · intro hplus hsharp
    constructor
    · have hloop := formatLoop_trace_maps rt codes
        (list (.withCode err code cause stack)).length state.minus
        (list (.withCode err code cause stack)) 0 [] "" "" hframes
      simp only [withCode.records, Flag_sharp, Flag_minus, Flag_plus, hplus, hsharp]
      simpa using hloop
    · intro i e hi
      rw [recordMaps_getElem? rt codes _ _ 0 i e hi, hidx]
  · intro hplus hminus hsharp
    rw [records_no_trace rt codes err code cause stack state hplus, hsharp, hminus,
      format_text_record rt _ [] "" _ "" true false (by simp) hstack]
    simp only [empty_append]
  · intro hplus hminus hsharp
    rw [records_no_trace rt codes err code cause stack state hplus, hsharp, hminus,
      format_json_map rt _ [] "" _ "" true false (by simp) hstack]
    rfl
  · intro e hi
    rw [recordTexts_getElem? rt codes _ _ 0 _ e hi]
    congr 2
    push_cast [hpos]
    ring

theorem ordinal_markers_witness :
    (recordTexts exampleRuntime exampleCodes
        (list (.withCode "query failed" 100001 (.baseError "db down" [4198401])
          [4198401])).length 0
        (list (.withCode "query failed" 100001 (.baseError "db down" [4198401])
          [4198401])))[1]?
      = some (recordText exampleRuntime
          (((list (.withCode "query failed" 100001 (.baseError "db down" [4198401])
            [4198401])).length : Int) - 1 - (1 : Nat))
          (buildFormatInfo exampleCodes (.baseError "db down" [4198401]))) :=
  ((ordinal_markers exampleRuntime exampleCodes "query failed" 100001
      (.baseError "db down" [4198401]) [4198401] ⟨false, false, true⟩ (by decide)).1
      rfl rfl).2 1 (.baseError "db down" [4198401]) (by decide)

/-! ## Content of trace records -/

theorem recordMaps_length (rt : Runtime) (codes : Codes) (length : Int) (errs : List Err) :
    ∀ k : Int, (recordMaps rt codes length k errs).length = errs.length := by
  induction errs with
  | nil => intro k; rfl
  | cons e errs ih => intro k; simp [recordMaps, ih]

theorem buildFormatInfo_snapshot (codes : Codes) (e : Err) :
    (buildFormatInfo codes e).stack = e.snapshot? := by
  cases e <;> rfl

/-- The final text of `withCode.Format` with the trace flag in text mode. -/
theorem Format_trace_text (rt : Runtime) (codes : Codes) (err : String) (code : Int)
    (cause : Err) (stack : List Nat) (state : State) (hplus : state.plus = true)
    (hsharp : state.sharp = false)
    (hframes : ∀ n ∈ list (.withCode err code cause stack), n.framesOk = true) :
    withCode.Format rt codes (.withCode err code cause stack) state 'v'
      = some (strings.Trim (";".intercalate (recordTexts rt codes
          (list (.withCode err code cause stack)).length 0
          (list (.withCode err code cause stack)))) "\r\n\t") := by
  have hv : withCode.Format rt codes (.withCode err code cause stack) state 'v'
      = match withCode.records rt codes (.withCode err code cause stack) state with
        | none => none
        | some r =>
          some (strings.Trim (if state.Flag '#' then r.2 ++ rt.Marshal r.1 else r.2)
            "\r\n\t") := rfl
  rw [hv, records_trace_text rt codes err code cause stack state hplus hsharp hframes]
  simp only [Flag_sharp, hsharp, Bool.false_eq_true, if_false]

/-- The final text of `withCode.Format` with the trace flag in structured mode. -/
theorem Format_trace_maps (rt : Runtime) (codes : Codes) (err : String) (code : Int)
    (cause : Err) (stack : List Nat) (state : State) (hplus : state.plus = true)
    (hsharp : state.sharp = true)
    (hframes : ∀ n ∈ list (.withCode err code cause stack), n.framesOk = true) :
    withCode.Format rt codes (.withCode err code cause stack) state 'v'
      = some (strings.Trim (rt.Marshal (recordMaps rt codes
          (list (.withCode err code cause stack)).length 0
          (list (.withCode err code cause stack)))) "\r\n\t") := by
  have hv : withCode.Format rt codes (.withCode err code cause stack) state 'v'
      = match withCode.records rt codes (.withCode err code cause stack) state with
        | none => none
        | some r =>
          some (strings.Trim (if state.Flag '#' then r.2 ++ rt.Marshal r.1 else r.2)
            "\r\n\t") := rfl
  have hrec : withCode.records rt codes (.withCode err code cause stack) state
      = some (recordMaps rt codes (list (.withCode err code cause stack)).length 0
          (list (.withCode err code cause stack)), "") := by
    simp only [withCode.records, Flag_sharp, Flag_minus, Flag_plus, hplus, hsharp]
    rw [formatLoop_trace_maps rt codes _ state.minus _ 0 [] "" "" hframes]
    rfl
  rw [hv, hrec]
  simp only [Flag_sharp, hsharp, if_true, empty_append]

/-- C10 (counterexample): the text render with the trace flag of
`WrapC(io.EOF, 100001, "read failed")` has two records, and the record of the root, an
error of another package, which owns no snapshot, is "EOF - #0 EOF": it shows no code,
although the record built for the node carries the unknown code 1 and the structured
render shows it.  The record of a MessageWrap node in a chain shows no code either. -/
theorem text_trace_record_without_code :
    withCode.Format exampleRuntime exampleCodes
        (WrapC [4198401] (.external "EOF") 100001 "read failed") ⟨false, false, true⟩ 'v'
      = some ("read failed - #1 [/app/main.go:42 (main.query)](100001) service unavailable"
          ++ ";EOF - #0 EOF")
    ∧ recordTexts exampleRuntime exampleCodes 2 0
        (list (WrapC [4198401] (.external "EOF") 100001 "read failed"))
      = ["read failed - #1 [/app/main.go:42 (main.query)](100001) service unavailable",
         "EOF - #0 EOF"]
    ∧ (buildFormatInfo exampleCodes (.external "EOF")).code = 1
    ∧ '1' ∉ (recordText exampleRuntime 0 (buildFormatInfo exampleCodes (.external "EOF"))).data
    ∧ withCode.records exampleRuntime exampleCodes
        (WrapC [4198401] (.external "EOF") 100001 "read failed") ⟨true, false, true⟩
      = some ([[("message", .str "service unavailable"), ("code", .num 100001),
                ("error", .str "read failed"),
                ("caller", .str "#1 /app/main.go:42 (main.query)")],
               [("message", .str "EOF"), ("code", .num 1), ("error", .str "EOF"),
                ("caller", .str "#0")]], "")
    ∧ withCode.Format exampleRuntime exampleCodes
        (WrapC [4198401] (WithMessage (New [4198401] "db down") "ctx") 100001 "query failed")
        ⟨false, false, true⟩ 'v'
      = some ("query failed - #2 [/app/main.go:42 (main.query)](100001) service unavailable"
          ++ ";ctx - #1 ctx;db down - #0 [/app/main.go:42 (main.query)](1) db down") := by
  decide

/-- C10 (amended): the render with the trace flag of a coded node, in a registry whose
entries are stored under their own code and with a frame in every snapshot, is made of
one record per node of the flattened chain, in nearest-to-root order.  In structured
mode the render is the encoding of the maps of the nodes, and the map of a node holds
the node's own message under `error` and, under `code`, the node's code when it is
registered and the unknown code otherwise.  In text mode the render is the record texts
of the nodes joined by `;`; the text of a node starts with the node's own message and
the ordinal, and it shows the call site and the code (the node's code when it is
registered, the unknown code otherwise) only when the node owns a snapshot: for a node
without a snapshot it is the own message, the ordinal and the external message, with no
code.  For `e2 = WrapC(New("db down"), 100001, "query failed")` with 100001 registered
both modes give exactly two records, the nearest with "query failed" and code 100001,
the root with "db down" and the unknown code 1. -/
theorem trace_record_content (rt : Runtime) (codes : Codes) (hk : codes.Keyed)
    (err : String) (code : Int) (cause : Err) (stack : List Nat) (state : State)
    (htrace : state.plus = true)
    (hframes : ∀ n ∈ list (.withCode err code cause stack), n.framesOk = true) :
    (state.sharp = true →
      withCode.Format rt codes (.withCode err code cause stack) state 'v'
        = some (strings.Trim (rt.Marshal (recordMaps rt codes
            (list (.withCode err code cause stack)).length 0
            (list (.withCode err code cause stack)))) "\r\n\t")
      ∧ (recordMaps rt codes (list (.withCode err code cause stack)).length 0
            (list (.withCode err code cause stack))).length
          = (list (.withCode err code cause stack)).length
      ∧ ∀ (i : Nat) (n : Err), (list (.withCode err code cause stack))[i]? = some n →
          ∃ r, (recordMaps rt codes (list (.withCode err code cause stack)).length 0
              (list (.withCode err code cause stack)))[i]? = some r
            ∧ List.lookup "error" r = some (JSONValue.str (n.ownMessage codes))
            ∧ List.lookup "code" r = some (JSONValue.num (n.recordCode codes)))
    ∧ (state.sharp = false →
      withCode.Format rt codes (.withCode err code cause stack) state 'v'
        = some (strings.Trim (";".intercalate (recordTexts rt codes
            (list (.withCode err code cause stack)).length 0
            (list (.withCode err code cause stack)))) "\r\n\t")
      ∧ (recordTexts rt codes (list (.withCode err code cause stack)).length 0
            (list (.withCode err code cause stack))).length
          = (list (.withCode err code cause stack)).length
      ∧ ∀ (i : Nat) (n : Err), (list (.withCode err code cause stack))[i]? = some n →
          ∃ t, (recordTexts rt codes (list (.withCode err code cause stack)).length 0
              (list (.withCode err code cause stack)))[i]? = some t
            ∧ match n.snapshot? with
              | some (f :: _) =>
                t = n.ownMessage codes ++ (" - #"
                  ++ (toString (((list (.withCode err code cause stack)).length : Int) - i - 1)
                  ++ (" [" ++ (Frame.file rt f ++ (":" ++ (toString (Frame.line rt f)
                  ++ (" (" ++ (Frame.name rt f ++ (")](" ++ (toString (n.recordCode codes)
                  ++ (") " ++ (buildFormatInfo codes n).message)))))))))))
              | _ =>
                t = n.ownMessage codes ++ (" - #"
                  ++ (toString (((list (.withCode err code cause stack)).length : Int) - i - 1)
                  ++ (" " ++ (buildFormatInfo codes n).message))))
    ∧ withCode.records exampleRuntime exampleCodes
        (WrapC [4198401] (New [4198401] "db down") 100001 "query failed") ⟨true, false, true⟩
      = some ([[("message", .str "service unavailable"), ("code", .num 100001),
                ("error", .str "query failed"),
                ("caller", .str "#1 /app/main.go:42 (main.query)")],
               [("message", .str "db down"), ("code", .num 1), ("error", .str "db down"),
                ("caller", .str "#0 /app/main.go:42 (main.query)")]], "")
    ∧ withCode.Format exampleRuntime exampleCodes
        (WrapC [4198401] (New [4198401] "db down") 100001 "query failed")
        ⟨false, false, true⟩ 'v'
      = some ("query failed - #1 [/app/main.go:42 (main.query)](100001) service unavailable"
          ++ ";db down - #0 [/app/main.go:42 (main.query)](1) db down") := by
  refine ⟨?_, ?_, by decide, by decide⟩
  · intro hsharp
    refine ⟨Format_trace_maps rt codes err code cause stack state htrace hsharp hframes,
      ?_, ?_⟩
    · exact recordMaps_length rt codes _ _ 0
    · intro i n hn
      refine ⟨_, recordMaps_getElem? rt codes _ _ 0 i n hn, ?_, ?_⟩
      · rw [← buildFormatInfo_err]
        rfl
      · rw [← buildFormatInfo_code codes hk]
        rfl
  · intro hsharp
    refine ⟨Format_trace_text rt codes err code cause stack state htrace hsharp hframes,
      recordTexts_length rt codes _ _ 0, ?_⟩
    intro i n hn
    refine ⟨_, recordTexts_getElem? rt codes _ _ 0 i n hn, ?_⟩
    have hz : ((list (.withCode err code cause stack)).length : Int) - (0 + (i : Int)) - 1
        = ((list (.withCode err code cause stack)).length : Int) - i - 1 := by ring
    rw [hz]
    unfold recordText
    rw [buildFormatInfo_snapshot, buildFormatInfo_err, buildFormatInfo_code codes hk]
    cases hs : n.snapshot? with
    | none => rfl
    | some l =>
      cases l with
      | nil => rfl
      | cons f fs => rfl

theorem trace_record_content_witness :
    withCode.Format exampleRuntime exampleCodes
        (.withCode "read failed" 100001 (.external "EOF") [4198401])
        ⟨false, false, true⟩ 'v'
      = some (strings.Trim (";".intercalate (recordTexts exampleRuntime exampleCodes
          (list (.withCode "read failed" 100001 (.external "EOF") [4198401])).length 0
          (list (.withCode "read failed" 100001 (.external "EOF") [4198401])))) "\r\n\t") :=
  ((trace_record_content exampleRuntime exampleCodes exampleCodes_Keyed "read failed" 100001
    (.external "EOF") [4198401] ⟨false, false, true⟩ rfl (by decide)).2.1 rfl).1

/-! ## Render of a chain of wraps -/

theorem isCoded_shape (x : Err) (h : x.isCoded = true) :
    ∃ err code cause stack, x = .withCode err code cause stack := by
  cases x with
  | withCode err code cause stack => exact ⟨err, code, cause, stack, rfl⟩
  | nil => exact absurd h (by decide)
  | baseError _ _ => exact absurd h (by simp [Err.isCoded])
  | withStack _ _ => exact absurd h (by simp [Err.isCoded])
  | withMessage _ _ => exact absurd h (by simp [Err.isCoded])
  | external _ => exact absurd h (by simp [Err.isCoded])
  | externalWrap _ _ => exact absurd h (by simp [Err.isCoded])

theorem Wrap_coded (callers : List Nat) (x : Err) (m : String) (h : x.isCoded = true) :
    (Wrap callers x m).isCoded = true := by
  obtain ⟨err, code, cause, stack, rfl⟩ := isCoded_shape x h
  rfl

theorem wraps_coded (ws : List (List Nat × String)) (e : Err) (h : e.isCoded = true) :
    (wraps ws e).isCoded = true := by
  induction ws with
  | nil => exact h
  | cons w ws ih => exact Wrap_coded w.1 (wraps ws e) w.2 ih

/-- Go `Wrap` over a non-nil un-coded error builds a StackWrap over a MessageWrap. -/
theorem Wrap_uncoded_eq (callers : List Nat) (x : Err) (m : String) (hne : x ≠ .nil)
    (hc : x.isCoded = false) :
    Wrap callers x m = .withStack (.withMessage x m) callers := by
  cases x with
  | nil => exact absurd rfl hne
  | withCode _ _ _ _ => exact absurd hc (by simp [Err.isCoded])
  | baseError _ _ => rfl
  | withStack _ _ => rfl
  | withMessage _ _ => rfl
  | external _ => rfl
  | externalWrap _ _ => rfl

theorem wraps_uncoded (e : Err) (h : e.isRoot = true) (hc : e.isCoded = false)
    (ws : List (List Nat × String)) :
    (wraps ws e).isCoded = false ∧ wraps ws e ≠ .nil := by
  induction ws with
  | nil => exact ⟨hc, isRoot_ne_nil e h⟩
  | cons w ws ih =>
    show (Wrap w.1 (wraps ws e) w.2).isCoded = false ∧ Wrap w.1 (wraps ws e) w.2 ≠ .nil
    rw [Wrap_uncoded_eq w.1 _ w.2 ih.2 ih.1]
    exact ⟨rfl, by simp⟩

/-- C7 (counterexample): `Wrap(New("db down"), "query failed")`, one wrap of a Base
root, flattens to two entries, but its trace render (`%+v`, written by
`withStack.Format`) is not made of records: it is the message and the frames of the
root, a newline, the message of the wrap and the frames of the wrap, with no ordinal
marker and no separator, and it is not the two record texts of the flattened chain.
The same holds for two wraps of `io.EOF`. -/
theorem uncoded_wraps_render_without_records :
    wraps [([4198401], "query failed")] (New [4198401] "db down")
      = .withStack (.withMessage (.baseError "db down" [4198401]) "query failed") [4198401]
    ∧ (list (wraps [([4198401], "query failed")] (New [4198401] "db down"))).length = 2
    ∧ withStack.Format exampleRuntime exampleCodes
        (.withMessage (.baseError "db down" [4198401]) "query failed") [4198401]
        ⟨false, false, true⟩ 'v'
      = "db down\nmain.query\n\t/app/main.go:42\nquery failed\nmain.query\n\t/app/main.go:42"
    ∧ ';' ∉ (withStack.Format exampleRuntime exampleCodes
        (.withMessage (.baseError "db down" [4198401]) "query failed") [4198401]
        ⟨false, false, true⟩ 'v').data
    ∧ '#' ∉ (withStack.Format exampleRuntime exampleCodes
        (.withMessage (.baseError "db down" [4198401]) "query failed") [4198401]
        ⟨false, false, true⟩ 'v').data
    ∧ withStack.Format exampleRuntime exampleCodes
        (.withMessage (.baseError "db down" [4198401]) "query failed") [4198401]
        ⟨false, false, true⟩ 'v'
      ≠ ";".intercalate (recordTexts exampleRuntime exampleCodes 2 0
          (list (wraps [([4198401], "query failed")] (New [4198401] "db down"))))
    ∧ sprintPlusV exampleRuntime exampleCodes
        (wraps [([4198401], "client error"), ([4198401], "read error")] (.external "EOF"))
      = "EOF\nread error\nmain.query\n\t/app/main.go:42\nclient error\nmain.query\n\t/app/main.go:42" := by
  decide

/-- C7 (amended): for every root node `e` and every sequence of `k` applications of
`Wrap`, the chain flattens (`list`) to exactly `k + 1` entries, the first being the
outermost wrap and the last being `e`.  When `e` is a coded node, the result is a coded
node and its render with the trace flag (snapshots holding a frame) has exactly `k + 1`
records: the encoding of `k + 1` maps in structured mode, `k + 1` record texts joined by
`;` in text mode.  When `e` is un-coded (a Base node, an error of another package) and
`k` is at least 1, the result is a StackWrap over a MessageWrap, and its render with the
trace flag is written by `withStack.Format`, not as records: it is the `%+v` render of
the chain beneath the outermost wrap, a newline, the message of that wrap and the frames
of its snapshot. -/
theorem list_wraps_render (e : Err) (h : e.isRoot = true) (ws : List (List Nat × String)) :
    (list (wraps ws e)).length = ws.length + 1
    ∧ (list (wraps ws e)).head? = some (wraps ws e)
    ∧ (list (wraps ws e)).getLast? = some e
    ∧ (e.isCoded = true →
        (wraps ws e).isCoded = true
        ∧ ∀ (rt : Runtime) (codes : Codes) (state : State), state.plus = true →
          (∀ n ∈ list (wraps ws e), n.framesOk = true) →
          (state.sharp = true →
            ∃ recs, withCode.Format rt codes (wraps ws e) state 'v'
                = some (strings.Trim (rt.Marshal recs) "\r\n\t")
              ∧ recs.length = ws.length + 1)
          ∧ (state.sharp = false →
            ∃ texts, withCode.Format rt codes (wraps ws e) state 'v'
                = some (strings.Trim (";".intercalate texts) "\r\n\t")
              ∧ texts.length = ws.length + 1))
    ∧ (e.isCoded = false → ∀ (w : List Nat × String) (rest : List (List Nat × String)),
        ws = w :: rest →
        wraps ws e = .withStack (.withMessage (wraps rest e) w.2) w.1
        ∧ ∀ (rt : Runtime) (codes : Codes) (state : State), state.plus = true →
          withStack.Format rt codes (.withMessage (wraps rest e) w.2) w.1 state 'v'
            = sprintPlusV rt codes (wraps rest e) ++ "\n" ++ w.2
                ++ stack.FormatPlusV rt w.1) := by
  obtain ⟨h1, h2, h3⟩ := list_wraps_facts e h ws
  refine ⟨h1, h2, h3, ?_, ?_⟩
  · intro hcoded
    have hwc := wraps_coded ws e hcoded
    refine ⟨hwc, ?_⟩
    intro rt codes state hplus hframes
    obtain ⟨err, code, cause, stack, hw⟩ := isCoded_shape _ hwc
    rw [hw] at hframes h1 ⊢
    constructor
    · intro hsharp
      exact ⟨_, Format_trace_maps rt codes err code cause stack state hplus hsharp hframes,
        by rw [recordMaps_length, h1]⟩
    · intro hsharp
      exact ⟨_, Format_trace_text rt codes err code cause stack state hplus hsharp hframes,
        by rw [recordTexts_length, h1]⟩
  · intro hunc w rest hws
    subst hws
    obtain ⟨hc, hne⟩ := wraps_uncoded e h hunc rest
    refine ⟨Wrap_uncoded_eq w.1 _ w.2 hne hc, ?_⟩
    intro rt codes state hplus
    have hv : withStack.Format rt codes (.withMessage (wraps rest e) w.2) w.1 state 'v'
        = if state.Flag '+' then
            sprintPlusV rt codes (.withMessage (wraps rest e) w.2)
              ++ stack.FormatPlusV rt w.1
          else (Err.withMessage (wraps rest e) w.2).Error codes := rfl
    rw [hv, Flag_plus, hplus, if_pos rfl]
    rfl

theorem list_wraps_render_witness :
    (∃ texts, withCode.Format exampleRuntime exampleCodes
          (wraps [([4198401], "client error"), ([4198657], "read error")]
            (WithCode [4198401] 100001 "boom")) ⟨false, false, true⟩ 'v'
        = some (strings.Trim (";".intercalate texts) "\r\n\t")
      ∧ texts.length = 3)
    ∧ (list (wraps [([4198401], "client error"), ([4198657], "read error")]
        (.external "EOF"))).getLast? = some (.external "EOF") :=
  ⟨(((list_wraps_render (WithCode [4198401] 100001 "boom") (by decide)
      [([4198401], "client error"), ([4198657], "read error")]).2.2.2.1 (by decide)).2
      exampleRuntime exampleCodes ⟨false, false, true⟩ rfl (by decide)).2 rfl,
   (list_wraps_render (.external "EOF") (by decide)
      [([4198401], "client error"), ([4198657], "read error")]).2.2.1⟩

/-! ## Lock discipline of the registry -/

theorem Register_codes_other (codes : Codes) (d : Coder) (k : Int) (h : d.Code ≠ k) :
    (Register codes d).codes k = codes k := by
  unfold Register
  split
  · rfl
  · show (if k = d.Code then some d else codes k) = codes k
    rw [if_neg (fun hk => h hk.symm)]

theorem Register_codes_self (codes : Codes) (d : Coder) (h : d.Code ≠ 0) :
    (Register codes d).codes d.Code = some d := by
  unfold Register
  rw [if_neg h]
  show (if d.Code = d.Code then some d else codes d.Code) = some d
  rw [if_pos rfl]

theorem registerAll_other (ds : List Coder) :
    ∀ (codes : Codes) (k : Int), (∀ d ∈ ds, d.Code ≠ k) →
      registerAll codes ds k = codes k := by
  induction ds with
  | nil => intro codes k _; rfl
  | cons d ds ih =>
    intro codes k h
    show registerAll (Register codes d).codes ds k = codes k
    rw [ih _ k (fun x hx => h x (List.mem_cons_of_mem _ hx)),
      Register_codes_other codes d k (h d (List.mem_cons_self _ _))]

/-- Calls of `Register` that run one after the other, in any order, for descriptors with
distinct non-zero codes lose no write: afterwards every code maps to its descriptor. -/
theorem registerAll_keeps (ds : List Coder) :
    ∀ codes : Codes, (ds.map defaultCoder.Code).Nodup → (∀ d ∈ ds, d.Code ≠ 0) →
      ∀ d ∈ ds, registerAll codes ds d.Code = some d := by
  induction ds with
  | nil => intro _ _ _ d hd; exact absurd hd (List.not_mem_nil d)
  | cons d₀ ds ih =>
    intro codes hnd hz d hd
    rw [List.map_cons, List.nodup_cons] at hnd
    show registerAll (Register codes d₀).codes ds d.Code = some d
    rcases List.mem_cons.mp hd with rfl | hmem
    · rw [registerAll_other ds _ d.Code (fun x hx hxe =>
        hnd.1 (List.mem_map.mpr ⟨x, hx, hxe⟩))]
      exact Register_codes_self codes d (hz d (List.mem_cons_self _ _))
    · exact ih _ hnd.2 (fun x hx => hz x (List.mem_cons_of_mem _ hx)) d hmem

/-- C24 (evaluation at the failing input): every call of `Register` and of
`MustRegister` makes its accesses to the map `codes` while it holds `codeMux`, but
`ParseCoder` and `buildFormatInfo` on a coded node read the map without the lock.  So a
call of `Register` in one goroutine and a lookup by `ParseCoder`, or a render through
`buildFormatInfo`, in another have a data race, while two registrations never race and
two lookups, which only read, never race. -/
theorem registry_reads_skip_codeMux :
    (∀ d : Coder, guarded (Register.events d) = true)
    ∧ (∀ (codes : Codes) (d : Coder), guarded (MustRegister.events codes d) = true)
    ∧ (∀ (err : String) (code : Int) (cause : Err) (stack : List Nat),
        guarded (ParseCoder.events (.withCode err code cause stack)) = false
        ∧ guarded (buildFormatInfo.events (.withCode err code cause stack)) = false)
    ∧ races (Register.events ⟨100002, 400, "bad request", "docs/100002"⟩)
        (ParseCoder.events (WithCode [4198401] 100001 "boom")) = true
    ∧ races (Register.events ⟨100002, 400, "bad request", "docs/100002"⟩)
        (buildFormatInfo.events (WithCode [4198401] 100001 "boom")) = true
    ∧ (∀ (codes : Codes) (d₁ d₂ : Coder),
        races (Register.events d₁) (Register.events d₂) = false
        ∧ races (MustRegister.events codes d₁) (Register.events d₂) = false
        ∧ races (MustRegister.events codes d₁) (MustRegister.events codes d₂) = false)
    ∧ (∀ e₁ e₂ : Err, races (ParseCoder.events e₁) (ParseCoder.events e₂) = false) := by
  refine ⟨?_, ?_, ?_, by decide, by decide, ?_, ?_⟩
  · intro d
    unfold Register.events
    split <;> rfl
  · intro codes d
    unfold MustRegister.events
    split
    · rfl
    · split <;> rfl
  · intro err code cause stack
    exact ⟨rfl, rfl⟩
  · intro codes d₁ d₂
    unfold Register.events MustRegister.events
    refine ⟨?_, ?_, ?_⟩
    · split <;> split <;> rfl
    · split
      · rfl
      · split <;> split <;> rfl
    · split
      · rfl
      · split
        · split
          · rfl
          · split <;> rfl
        · split
          · rfl
          · split <;> rfl
  · intro e₁ e₂
    cases e₁ <;> cases e₂ <;> rfl

end errors

/-! ## Shutdown coordinator -/

namespace shutdown

theorem foldl_AddShutdownManager {σ : Type} (ms : List (ShutdownManager σ)) :
    ∀ gs : GracefulShutdown σ,
      (ms.foldl GracefulShutdown.AddShutdownManager gs).managers = gs.managers ++ ms := by
  induction ms with
  | nil => intro gs; simp
  | cons m ms ih =>
    intro gs
    simp only [List.foldl_cons, ih, GracefulShutdown.AddShutdownManager, List.append_assoc,
      List.singleton_append]

theorem withManagers_managers {σ : Type} (ms : List (ShutdownManager σ)) :
    (withManagers ms).managers = ms := by
  unfold withManagers
  rw [foldl_AddShutdownManager]
  rfl

theorem startLoop_succeed {σ : Type} (ms : List (ShutdownManager σ)) :
    ∀ w : σ, startsSucceed ms w →
      startLoop ms w = (ms.foldl (fun w m => (m.Start w).1) w, none) := by
  induction ms with
  | nil => intro w _; rfl
  | cons m ms ih =>
    intro w h
    obtain ⟨h1, h2⟩ := h
    have hm : m.Start w = ((m.Start w).1, none) := Prod.ext rfl h1
    simp only [startLoop, List.foldl_cons]
    rw [hm]
    exact ih _ h2

theorem startsSucceed_named (names : List String) :
    ∀ log : List String, startsSucceed (names.map namedManager) log := by
  induction names with
  | nil => intro log; trivial
  | cons n names ih => intro log; exact ⟨rfl, ih _⟩

theorem foldl_named (names : List String) :
    ∀ log : List String,
      (names.map namedManager).foldl (fun w m => (m.Start w).1) log = log ++ names := by
  induction names with
  | nil => intro log; simp
  | cons n names ih =>
    intro log
    simp only [List.map_cons, List.foldl_cons, ih]
    simp [namedManager]

theorem startsSucceed_replicate (n : Nat) :
    ∀ c : Nat, startsSucceed
      (List.replicate n (fakeManager (fun (c : Nat) => (c + 1, (none : Option String))))) c := by
  induction n with
  | zero => intro c; trivial
  | succ n ih => intro c; exact ⟨rfl, ih _⟩

theorem foldl_replicate (n : Nat) :
    ∀ c : Nat,
      (List.replicate n (fakeManager (fun (c : Nat) => (c + 1, (none : Option String))))).foldl
        (fun w m => (m.Start w).1) c = c + n := by
  induction n with
  | zero => intro c; rfl
  | succ n ih =>
    intro c
    simp only [List.replicate_succ, List.foldl_cons, ih]
    simp only [fakeManager]
    omega

/-- C26: for every list of managers added with `AddShutdownManager`, when every `Start`
call of the run succeeds, `GracefulShutdown.Start` returns nil and leaves the world that
the `Start` calls of the managers produce one after the other in registration order.
Managers that record their name leave the log of the names in registration order, each
exactly once; the 100 managers of the test, each sending on the channel, leave 100
values in it. -/
theorem Start_starts_every_manager {σ : Type} (ms : List (ShutdownManager σ)) (w : σ)
    (hok : startsSucceed ms w) :
    (withManagers ms).managers = ms
    ∧ (withManagers ms).Start w = (ms.foldl (fun w m => (m.Start w).1) w, none)
    ∧ (∀ (names log : List String),
        (withManagers (names.map namedManager)).Start log = (log ++ names, none))
    ∧ (withManagers (List.replicate 100
        (fakeManager (fun (c : Nat) => (c + 1, (none : Option String)))))).Start 0
        = (100, none) := by
  refine ⟨withManagers_managers ms, ?_, ?_, ?_⟩
  · simp only [GracefulShutdown.Start, withManagers_managers]
    exact startLoop_succeed ms w hok
  · intro names log
    simp only [GracefulShutdown.Start, withManagers_managers]
    rw [startLoop_succeed _ _ (startsSucceed_named names log), foldl_named]
  · simp only [GracefulShutdown.Start, withManagers_managers]
    rw [startLoop_succeed _ _ (startsSucceed_replicate 100 0), foldl_replicate]

theorem Start_starts_every_manager_witness :
    (withManagers [namedManager "signal", namedManager "http"]).Start []
      = (["signal", "http"], none) :=
  (Start_starts_every_manager [namedManager "signal", namedManager "http"] []
    ⟨rfl, rfl, trivial⟩).2.1

namespace managers

/-- C25 (evaluation at the failing input): `NewPosixSignalManager` called with no signal
returns a manager whose signal list is empty, not `[SIGINT, SIGTERM]`; for every list it
returns a manager holding exactly the signals it was given. -/
theorem NewPosixSignalManager_default_is_empty :
    NewPosixSignalManager [] = { signals := [] }
    ∧ NewPosixSignalManager [] ≠ { signals := [SIGINT, SIGTERM] }
    ∧ NewPosixSignalManager [SIGTERM] = { signals := [SIGTERM] }
    ∧ (∀ sig : List Signal, NewPosixSignalManager sig = { signals := sig }) := by
  refine ⟨by decide, by decide, by decide, ?_⟩
  intro sig
  unfold NewPosixSignalManager
  by_cases h : sig.length = 0 <;> simp [h, Id.run]

end managers

end shutdown
